import Mathlib

set_option maxHeartbeats 1600000
set_option maxRecDepth 4096

namespace AwsDurable

/-!
Shallow embedding of the `swc-plugin-aws-durable` source-to-source rewriting
pass.  The abstract syntax mirrors the fragment of the swc ECMAScript tree that
the plugin inspects or fabricates; node kinds the plugin neither matches on nor
builds are represented by opaque `unknown` constructors carrying a tag (the
Rust code clones such nodes verbatim, which the model reproduces).  Spans and
syntax contexts are metadata the plugin never branches on and are omitted.
-/

/-- Literal values (swc `Lit`, restricted to the variants the plugin builds or
inspects: string, boolean and number literals). -/
inductive Lit where
  | str (value : String)
  | boolL (value : Bool)
  | num (value : Int)

/-- Binding patterns.  The plugin only ever matches `Pat::Ident`; everything
else is opaque. -/
inductive Pat where
  | ident (name : String)
  | unknownPat (tag : Nat)

/-- Variable declaration kind (`var` / `let` / `const`). -/
inductive VarDeclKind where
  | varK
  | letK
  | constK

mutual

/-- Expressions (swc `Expr`). -/
inductive Expr where
  | ident (name : String)
  | lit (l : Lit)
  | call (callee : Callee) (args : List ExprOrSpread)
  | newE (callee : Expr) (args : Option (List ExprOrSpread))
  | awaitE (arg : Expr)
  | assign (left : Expr) (right : Expr)
  | arrow (params : List Pat) (body : BlockStmtOrExpr) (isAsync : Bool)
  | fnE (name : Option String) (function : FunctionB)
  | member (obj : Expr) (prop : String)
  | object (props : List PropKV)
  | array (elems : List ExprOrSpread)
  | unknownE (tag : Nat)

/-- Call callee (swc `Callee`): an expression, or `super`/`import` which the
plugin never matches. -/
inductive Callee where
  | expr (e : Expr)
  | unknownC (tag : Nat)

/-- A call/new argument (swc `ExprOrSpread`). -/
inductive ExprOrSpread where
  | mk (spread : Bool) (expr : Expr)

/-- Object literal properties; the plugin only fabricates key/value props with
identifier keys. -/
inductive PropKV where
  | keyValue (key : String) (value : Expr)
  | unknownP (tag : Nat)

/-- Arrow function body (swc `BlockStmtOrExpr`). -/
inductive BlockStmtOrExpr where
  | blockStmt (stmts : List Stmt)
  | expr (e : Expr)

/-- Function data shared by `FnDecl` / `FnExpr` (swc `Function`): parameters,
optional body block and the async flag. -/
inductive FunctionB where
  | mk (params : List Pat) (body : Option (List Stmt)) (isAsync : Bool)

/-- Statements (swc `Stmt`).  Statement kinds the transformer does not match
on (`if`, `for`, `throw`, ...) are opaque. -/
inductive Stmt where
  | expr (e : Expr)
  | decl (d : Decl)
  | ret (arg : Option Expr)
  | unknownS (tag : Nat)

/-- Declarations (swc `Decl`). -/
inductive Decl where
  | fn (ident : String) (function : FunctionB)
  | var (v : VarDecl)
  | unknownD (tag : Nat)

/-- A variable declaration (swc `VarDecl`). -/
inductive VarDecl where
  | mk (kind : VarDeclKind) (decls : List VarDeclarator)

/-- A single declarator of a variable declaration (swc `VarDeclarator`). -/
inductive VarDeclarator where
  | mk (name : Pat) (init : Option Expr)

end

/-- Projection: parameters of a function node. -/
def FunctionB.params : FunctionB → List Pat
  | .mk p _ _ => p

/-- Projection: optional body block of a function node. -/
def FunctionB.body : FunctionB → Option (List Stmt)
  | .mk _ b _ => b

/-- Projection: async flag of a function node. -/
def FunctionB.isAsync : FunctionB → Bool
  | .mk _ _ a => a

/-- Projection: declaration kind of a `VarDecl`. -/
def VarDecl.kind : VarDecl → VarDeclKind
  | .mk k _ => k

/-- Projection: declarator list of a `VarDecl`. -/
def VarDecl.decls : VarDecl → List VarDeclarator
  | .mk _ d => d

/-- Projection: binding pattern of a declarator. -/
def VarDeclarator.name : VarDeclarator → Pat
  | .mk n _ => n

/-- Projection: optional initializer of a declarator. -/
def VarDeclarator.init : VarDeclarator → Option Expr
  | .mk _ i => i

/-- Projection: spread flag of an argument. -/
def ExprOrSpread.spread : ExprOrSpread → Bool
  | .mk s _ => s

/-- Projection: expression of an argument. -/
def ExprOrSpread.expr : ExprOrSpread → Expr
  | .mk _ e => e

/-- Module export name of a named import specifier (swc `ModuleExportName`). -/
inductive ModuleExportName where
  | identE (s : String)
  | strE (s : String)

/-- Import specifiers (swc `ImportSpecifier`). -/
inductive ImportSpecifier where
  | named (localName : String) (imported : Option ModuleExportName)
  | defaultS (localName : String)
  | namespaceS (localName : String)

/-- An import declaration (swc `ImportDecl`): specifiers plus source path. -/
structure ImportDecl where
  specifiers : List ImportSpecifier
  src : String

/-- Default-exported declaration payload (swc `DefaultDecl`); the only variant
relevant to this plugin is a function expression. -/
inductive DefaultDecl where
  | fn (name : Option String) (function : FunctionB)
  | unknownDD (tag : Nat)

/-- Module-level declarations (swc `ModuleDecl`). -/
inductive ModuleDecl where
  | importD (i : ImportDecl)
  | exportDecl (decl : Decl)
  | exportDefaultDecl (decl : DefaultDecl)
  | unknownMD (tag : Nat)

/-- A top-level module item (swc `ModuleItem`). -/
inductive ModuleItem where
  | stmt (s : Stmt)
  | moduleDecl (d : ModuleDecl)

/-- A module is its top-level item sequence (swc `Module`, body only). -/
abbrev Module := List ModuleItem

/-!  ## Directive detection (`directive.rs`)  -/

/-- Check whether a statement is an expression statement whose expression is a
plain string literal equal to `value` (`is_directive`). -/
def isDirective (stmt : Stmt) (value : String) : Bool :=
  match stmt with
  | .expr (.lit (.str s)) => s == value
  | _ => false

/-- Check if a statement is a `"use workflow"` directive
(`is_use_workflow_directive`). -/
def isUseWorkflowDirective (stmt : Stmt) : Bool :=
  isDirective stmt "use workflow"

/-- Check if a statement is a `"use step"` directive
(`is_use_step_directive`). -/
def isUseStepDirective (stmt : Stmt) : Bool :=
  isDirective stmt "use step"

/-- Check if a block contains a `"use workflow"` directive among its direct
statements (`block_has_workflow_directive`). -/
def blockHasWorkflowDirective (stmts : List Stmt) : Bool :=
  stmts.any (fun s => isUseWorkflowDirective s)

/-- Check if a block contains a `"use step"` directive among its direct
statements (`block_has_step_directive`). -/
def blockHasStepDirective (stmts : List Stmt) : Bool :=
  stmts.any (fun s => isUseStepDirective s)

/-- Does a path start with a relative-path marker (`src.starts_with("./") ||
src.starts_with("../")`)?  Implemented on the character list so that concrete
instances evaluate inside the kernel. -/
def isRelativeSrc (s : String) : Bool :=
  match s.data with
  | '.' :: '/' :: _ => true
  | '.' :: '.' :: '/' :: _ => true
  | _ => false

/-- Character-wise uppercase (`str::to_uppercase`), implemented on the
character list so that concrete instances evaluate inside the kernel. -/
def stringToUpper (s : String) : String :=
  String.mk (s.data.map Char.toUpper)

/-!  ## Configuration (`config.rs`)  -/

/-- Transformation mode (`TransformMode`). -/
inductive TransformMode where
  | workflow
  | client

/-- Plugin configuration (`PluginConfig`).  `envPfx` models the Rust field
`env_prefix`. -/
structure PluginConfig where
  mode : TransformMode
  packageName : String
  envPfx : String

/-- Default plugin configuration (`PluginConfig::default`). -/
def defaultConfig : PluginConfig :=
  { mode := .workflow
    packageName := "@bento/aws-durable"
    envPfx := "WORKFLOW_" }

/-!  ## Collected info (`collector.rs` data model)  -/

/-- Info about a function with a `"use workflow"` directive
(`WorkflowFnInfo`). -/
structure WorkflowFnInfo where
  name : String
  isExported : Bool
  isDefaultExport : Bool
  isAsync : Bool

/-- Info about a function with a `"use step"` directive (`StepFnInfo`); the
body block is captured by value. -/
structure StepFnInfo where
  name : String
  body : List Stmt

/-- Info about an import from a workflow file, for client mode
(`WorkflowImportInfo`). -/
structure WorkflowImportInfo where
  localName : String
  importedName : String
  source : String

/-- The fact sheet produced by the first pass (`CollectedInfo`).  `stepFns`
models the Rust `HashMap<String, StepFnInfo>` as an association list with
replace-on-insert semantics; only key membership, key lookup and the key set
are ever consumed. -/
structure CollectedInfo where
  workflowFns : List WorkflowFnInfo
  stepFns : List (String × StepFnInfo)
  workflowImports : List WorkflowImportInfo
  hasInvoke : Bool
  hasSleep : Bool
  hasWaitForCallback : Bool
  stepFnNames : List String
  hasModuleWorkflowDirective : Bool

/-- Empty fact sheet (`CollectedInfo::default`). -/
def emptyInfo : CollectedInfo :=
  { workflowFns := []
    stepFns := []
    workflowImports := []
    hasInvoke := false
    hasSleep := false
    hasWaitForCallback := false
    stepFnNames := []
    hasModuleWorkflowDirective := false }

/-- Key membership in the `stepFns` map (`HashMap::contains_key`). -/
def stepContainsKey (m : List (String × StepFnInfo)) (k : String) : Bool :=
  m.any (fun p => p.1 == k)

/-- Lookup in the `stepFns` map (`HashMap::get`). -/
def stepGet (m : List (String × StepFnInfo)) (k : String) : Option StepFnInfo :=
  (m.find? (fun p => p.1 == k)).map (fun p => p.2)

/-- Insertion into the `stepFns` map (`HashMap::insert`): replaces the entry
when the key is present, appends otherwise. -/
def stepInsert (m : List (String × StepFnInfo)) (k : String) (v : StepFnInfo) :
    List (String × StepFnInfo) :=
  if stepContainsKey m k then
    m.map (fun p => if p.1 == k then (k, v) else p)
  else
    m ++ [(k, v)]

/-- Key list of the `stepFns` map (`HashMap::keys`).  The Rust map iterates in
an unspecified order; the model fixes insertion order, and every theorem about
the key list is stated so that only membership matters. -/
def stepKeys (m : List (String × StepFnInfo)) : List String :=
  m.map (fun p => p.1)

/-!  ## Codegen (`codegen.rs`)  -/

/-- Build `import { withDurableExecution } from "<packageName>"`
(`create_sdk_import`). -/
def createSdkImport (packageName : String) : ModuleItem :=
  .moduleDecl (.importD
    { specifiers := [.named "withDurableExecution" none]
      src := packageName })

/-- Build `import { LambdaClient, InvokeCommand } from "@aws-sdk/client-lambda"`
(`create_lambda_sdk_import`). -/
def createLambdaSdkImport : ModuleItem :=
  .moduleDecl (.importD
    { specifiers := [.named "LambdaClient" none, .named "InvokeCommand" none]
      src := "@aws-sdk/client-lambda" })

/-- Build `const <fnName> = withDurableExecution(async (event, ctx) => { ...body })`,
wrapped in an export declaration when one of the two flags is set
(`create_with_durable_execution_call`). -/
def createWithDurableExecutionCall (fnName : String) (bodyStmts : List Stmt)
    (isExported : Bool) (isDefault : Bool) : ModuleItem :=
  let arrow : Expr :=
    .arrow [.ident "event", .ident "ctx"] (.blockStmt bodyStmts) true
  let call : Expr :=
    .call (.expr (.ident "withDurableExecution")) [.mk false arrow]
  let decl : VarDecl :=
    .mk .constK [.mk (.ident fnName) (some call)]
  if isExported || isDefault then
    .moduleDecl (.exportDecl (.var decl))
  else
    .stmt (.decl (.var decl))

/-- Build `ctx.step("<stepName>", async () => { ...body })`
(`create_ctx_step_call`). -/
def createCtxStepCall (stepName : String) (bodyStmts : List Stmt) : Expr :=
  let arrow : Expr := .arrow [] (.blockStmt bodyStmts) true
  .call (.expr (.member (.ident "ctx") "step"))
    [.mk false (.lit (.str stepName)), .mk false arrow]

/-- Build the Lambda-invocation step body and wrap it as
`ctx.step("invoke", async () => { ... })` (`create_invoke_step`). -/
def createInvokeStep (fnNameExpr : Expr) (payloadExpr : Expr) : Expr :=
  let lambdaClient : Expr :=
    .newE (.ident "LambdaClient") (some [.mk false (.object [])])
  let jsonStringify : Expr :=
    .call (.expr (.member (.ident "JSON") "stringify")) [.mk false payloadExpr]
  let invokeCommand : Expr :=
    .newE (.ident "InvokeCommand")
      (some [.mk false (.object
        [.keyValue "FunctionName" fnNameExpr,
         .keyValue "Payload" jsonStringify])])
  let clientDecl : Stmt :=
    .decl (.var (.mk .constK [.mk (.ident "client") (some lambdaClient)]))
  let sendCall : Expr :=
    .awaitE (.call (.expr (.member (.ident "client") "send"))
      [.mk false invokeCommand])
  let responseDecl : Stmt :=
    .decl (.var (.mk .constK [.mk (.ident "response") (some sendCall)]))
  let returnStmt : Stmt :=
    .ret (some (.call (.expr (.member (.ident "JSON") "parse"))
      [.mk false (.call
        (.expr (.member (.newE (.ident "TextDecoder") (some [])) "decode"))
        [.mk false (.member (.ident "response") "Payload")])]))
  createCtxStepCall "invoke" [clientDecl, responseDecl, returnStmt]

/-- Build `ctx.wait(<durationExpr>)` (`create_ctx_wait_call`). -/
def createCtxWaitCall (durationExpr : Expr) : Expr :=
  .call (.expr (.member (.ident "ctx") "wait")) [.mk false durationExpr]

/-- Build `ctx.waitForCallback(...)`, forwarding the argument list verbatim
(`create_ctx_wait_for_callback_call`). -/
def createCtxWaitForCallbackCall (args : List ExprOrSpread) : Expr :=
  .call (.expr (.member (.ident "ctx") "waitForCallback")) args

/-- Build `export const __workflowMeta = { name: "<wf>", steps: [...] }`
(`create_workflow_meta_export`). -/
def createWorkflowMetaExport (workflowName : String) (stepNames : List String) :
    ModuleItem :=
  let stepsArray : Expr :=
    .array (stepNames.map (fun n => .mk false (.lit (.str n))))
  let metaObj : Expr :=
    .object
      [.keyValue "name" (.lit (.str workflowName)),
       .keyValue "steps" stepsArray]
  .moduleDecl (.exportDecl (.var
    (.mk .constK [.mk (.ident "__workflowMeta") (some metaObj)])))

/-- Build the client-mode workflow descriptor
`const <localName> = { __workflow: true, name: "<localName>", functionName: process.env.<envPfx><LOCALNAME> }`
(`create_workflow_descriptor`). -/
def createWorkflowDescriptor (localName : String) (envPfx : String) :
    ModuleItem :=
  let envVarName : String := envPfx ++ stringToUpper localName
  let envAccess : Expr :=
    .member (.member (.ident "process") "env") envVarName
  let descriptor : Expr :=
    .object
      [.keyValue "__workflow" (.lit (.boolL true)),
       .keyValue "name" (.lit (.str localName)),
       .keyValue "functionName" envAccess]
  .stmt (.decl (.var (.mk .constK [.mk (.ident localName) (some descriptor)])))

/-!  ## Collector (`collector.rs`)

The Rust collector is a `swc` `Visit` implementation: the default visitor
recursively visits every child node, and the collector overrides
`visit_module_items`, `visit_fn_decl`, `visit_var_declarator` and
`visit_call_expr`.  An override replaces the default traversal of that node:
`visit_fn_decl` and `visit_var_declarator` do not descend into their children
(beyond the explicit body scan) and `visit_call_expr` descends only into the
call arguments, never into the callee.  The functions below reproduce the
default traversal for the modeled node kinds together with those overrides,
threading the fact sheet and the `current_export` / `current_default_export`
flags. -/

/-- Extract the body block and async flag from an arrow or function expression
(`extract_fn_body` in `collector.rs`). -/
def extractFnBody (e : Expr) : Bool × Option (List Stmt) :=
  match e with
  | .arrow _ (.blockStmt block) isAsync => (isAsync, some block)
  | .arrow _ (.expr _) isAsync => (isAsync, none)
  | .fnE _ (.mk _ body isAsync) => (isAsync, body)
  | _ => (false, none)

/-- Flag triple of the `CallScanner` mini-visitor inside
`scan_block_for_special_calls`. -/
structure ScanFlags where
  hasInvoke : Bool
  hasSleep : Bool
  hasWaitForCallback : Bool

/-- Update the scanner flags for a call whose callee is one of the reserved
bare identifiers (the match inside `CallScanner::visit_call_expr`). -/
def scanCalleeFlags (f : ScanFlags) (callee : Callee) : ScanFlags :=
  match callee with
  | .expr (.ident n) =>
      if n == "invoke" then { f with hasInvoke := true }
      else if n == "sleep" then { f with hasSleep := true }
      else if n == "waitForCallback" then { f with hasWaitForCallback := true }
      else f
  | _ => f

mutual

/-- Scanner traversal of an expression (default `Visit` with the
`visit_call_expr` override of `CallScanner`). -/
def scanExpr (f : ScanFlags) : Expr → ScanFlags
  | .ident _ => f
  | .lit _ => f
  | .call callee args => scanArgs (scanCalleeFlags f callee) args
  | .newE callee args =>
      let f := scanExpr f callee
      match args with
      | some l => scanArgs f l
      | none => f
  | .awaitE a => scanExpr f a
  | .assign l r => scanExpr (scanExpr f l) r
  | .arrow _ body _ => scanBlockOrExpr f body
  | .fnE _ fn => scanFunction f fn
  | .member obj _ => scanExpr f obj
  | .object props => scanProps f props
  | .array elems => scanArgs f elems
  | .unknownE _ => f

/-- Scanner traversal of an argument list; `CallScanner::visit_call_expr`
visits only `arg.expr` of each argument, and the default visit of array
elements and `new` arguments does the same for the modeled fields. -/
def scanArgs (f : ScanFlags) : List ExprOrSpread → ScanFlags
  | [] => f
  | .mk _ e :: rest => scanArgs (scanExpr f e) rest

/-- Scanner traversal of object-literal properties. -/
def scanProps (f : ScanFlags) : List PropKV → ScanFlags
  | [] => f
  | .keyValue _ v :: rest => scanProps (scanExpr f v) rest
  | .unknownP _ :: rest => scanProps f rest

/-- Scanner traversal of an arrow body. -/
def scanBlockOrExpr (f : ScanFlags) : BlockStmtOrExpr → ScanFlags
  | .blockStmt stmts => scanStmts f stmts
  | .expr e => scanExpr f e

/-- Scanner traversal of a function node. -/
def scanFunction (f : ScanFlags) : FunctionB → ScanFlags
  | .mk _ (some body) _ => scanStmts f body
  | .mk _ none _ => f

/-- Scanner traversal of a statement list. -/
def scanStmts (f : ScanFlags) : List Stmt → ScanFlags
  | [] => f
  | s :: rest => scanStmts (scanStmt f s) rest

/-- Scanner traversal of one statement. -/
def scanStmt (f : ScanFlags) : Stmt → ScanFlags
  | .expr e => scanExpr f e
  | .decl d => scanDecl f d
  | .ret (some e) => scanExpr f e
  | .ret none => f
  | .unknownS _ => f

/-- Scanner traversal of a declaration (the scanner has no declaration
overrides, so the default visit recurses fully). -/
def scanDecl (f : ScanFlags) : Decl → ScanFlags
  | .fn _ fn => scanFunction f fn
  | .var (.mk _ decls) => scanVarDeclarators f decls
  | .unknownD _ => f

/-- Scanner traversal of variable declarators. -/
def scanVarDeclarators (f : ScanFlags) : List VarDeclarator → ScanFlags
  | [] => f
  | .mk _ (some init) :: rest => scanVarDeclarators (scanExpr f init) rest
  | .mk _ none :: rest => scanVarDeclarators f rest

end

/-- Scan a captured block for reserved calls and OR the results into the fact
sheet (`scan_block_for_special_calls`). -/
def scanBlockForSpecialCalls (info : CollectedInfo) (block : List Stmt) :
    CollectedInfo :=
  let s := scanStmts ⟨false, false, false⟩ block
  { info with
      hasInvoke := info.hasInvoke || s.hasInvoke
      hasSleep := info.hasSleep || s.hasSleep
      hasWaitForCallback := info.hasWaitForCallback || s.hasWaitForCallback }

/-- The `visit_fn_decl` override: register workflow/step facts from a function
declaration and scan its body; the children are not traversed further. -/
def collectFnDecl (exp dflt : Bool) (info : CollectedInfo) (name : String)
    (f : FunctionB) : CollectedInfo :=
  match f with
  | .mk _ none _ => info
  | .mk _ (some body) isAsync =>
      let info :=
        if blockHasWorkflowDirective body then
          { info with workflowFns :=
              info.workflowFns ++ [⟨name, exp, dflt, isAsync⟩] }
        else info
      let info :=
        if blockHasStepDirective body then
          { info with
              stepFnNames := info.stepFnNames ++ [name]
              stepFns := stepInsert info.stepFns name ⟨name, body⟩ }
        else info
      scanBlockForSpecialCalls info body

/-- The `visit_var_declarator` override: register workflow/step facts from a
declarator whose initializer is a function or arrow literal with a block body
and scan that body; the children are not traversed further. -/
def collectVarDeclarator (exp dflt : Bool) (info : CollectedInfo)
    (d : VarDeclarator) : CollectedInfo :=
  match d with
  | .mk _ none => info
  | .mk pat (some init) =>
      match pat with
      | .unknownPat _ => info
      | .ident name =>
          let (isAsync, body) := extractFnBody init
          match body with
          | none => info
          | some b =>
              let info :=
                if blockHasWorkflowDirective b then
                  { info with workflowFns :=
                      info.workflowFns ++ [⟨name, exp, dflt, isAsync⟩] }
                else info
              let info :=
                if blockHasStepDirective b then
                  { info with
                      stepFnNames := info.stepFnNames ++ [name]
                      stepFns := stepInsert info.stepFns name ⟨name, b⟩ }
                else info
              scanBlockForSpecialCalls info b

/-- Flag update of the collector's `visit_call_expr` override for a reserved
bare-identifier callee. -/
def collectCalleeFlags (info : CollectedInfo) (callee : Callee) :
    CollectedInfo :=
  match callee with
  | .expr (.ident n) =>
      if n == "invoke" then { info with hasInvoke := true }
      else if n == "sleep" then { info with hasSleep := true }
      else if n == "waitForCallback" then { info with hasWaitForCallback := true }
      else info
  | _ => info

mutual

/-- Collector traversal of an expression: the default visit, except that call
expressions go through the `visit_call_expr` override. -/
def collectExpr (exp dflt : Bool) (info : CollectedInfo) : Expr → CollectedInfo
  | .ident _ => info
  | .lit _ => info
  | .call callee args =>
      collectCallArgs exp dflt (collectCalleeFlags info callee) args
  | .newE callee args =>
      let info := collectExpr exp dflt info callee
      match args with
      | some l => collectCallArgs exp dflt info l
      | none => info
  | .awaitE a => collectExpr exp dflt info a
  | .assign l r => collectExpr exp dflt (collectExpr exp dflt info l) r
  | .arrow _ body _ => collectBlockOrExpr exp dflt info body
  | .fnE _ (.mk _ (some body) _) => collectStmts exp dflt info body
  | .fnE _ (.mk _ none _) => info
  | .member obj _ => collectExpr exp dflt info obj
  | .object props => collectProps exp dflt info props
  | .array elems => collectCallArgs exp dflt info elems
  | .unknownE _ => info

/-- Collector traversal of the arguments of a call (the explicit loop at the
end of `visit_call_expr`), also used for the default visit of array elements
and `new` arguments. -/
def collectCallArgs (exp dflt : Bool) (info : CollectedInfo) :
    List ExprOrSpread → CollectedInfo
  | [] => info
  | .mk _ e :: rest => collectCallArgs exp dflt (collectExpr exp dflt info e) rest

/-- Collector traversal of object-literal properties. -/
def collectProps (exp dflt : Bool) (info : CollectedInfo) :
    List PropKV → CollectedInfo
  | [] => info
  | .keyValue _ v :: rest =>
      collectProps exp dflt (collectExpr exp dflt info v) rest
  | .unknownP _ :: rest => collectProps exp dflt info rest

/-- Collector traversal of an arrow body. -/
def collectBlockOrExpr (exp dflt : Bool) (info : CollectedInfo) :
    BlockStmtOrExpr → CollectedInfo
  | .blockStmt stmts => collectStmts exp dflt info stmts
  | .expr e => collectExpr exp dflt info e

/-- Collector traversal of a statement list (default visit of a block). -/
def collectStmts (exp dflt : Bool) (info : CollectedInfo) :
    List Stmt → CollectedInfo
  | [] => info
  | s :: rest => collectStmts exp dflt (collectStmt exp dflt info s) rest

/-- Collector traversal of one statement. -/
def collectStmt (exp dflt : Bool) (info : CollectedInfo) : Stmt → CollectedInfo
  | .expr e => collectExpr exp dflt info e
  | .decl d => collectDecl exp dflt info d
  | .ret (some e) => collectExpr exp dflt info e
  | .ret none => info
  | .unknownS _ => info

/-- Collector traversal of a declaration: function declarations go through the
`visit_fn_decl` override, variable declarators through the
`visit_var_declarator` override; neither recurses further. -/
def collectDecl (exp dflt : Bool) (info : CollectedInfo) : Decl → CollectedInfo
  | .fn name fn => collectFnDecl exp dflt info name fn
  | .var (.mk _ decls) => collectVarDeclarators exp dflt info decls
  | .unknownD _ => info

/-- Collector traversal of a declarator list (default visit of a `VarDecl`,
dispatching each declarator to the override). -/
def collectVarDeclarators (exp dflt : Bool) (info : CollectedInfo) :
    List VarDeclarator → CollectedInfo
  | [] => info
  | d :: rest => collectVarDeclarators exp dflt (collectVarDeclarator exp dflt info d) rest

end

/-- First loop of `visit_module_items`: does a bare top-level `"use workflow"`
directive statement occur? -/
def moduleHasTopLevelWorkflowDirective (items : Module) : Bool :=
  items.any (fun item =>
    match item with
    | .stmt s => isUseWorkflowDirective s
    | _ => false)

/-- The `WorkflowImportInfo` records produced from one import specifier of a
relative-path import. -/
def importInfoOfSpecifier (src : String) (spec : ImportSpecifier) :
    WorkflowImportInfo :=
  match spec with
  | .named localName imported =>
      let importedName :=
        match imported with
        | some (.identE s) => s
        | some (.strE s) => s
        | none => localName
      ⟨localName, importedName, src⟩
  | .defaultS localName => ⟨localName, "default", src⟩
  | .namespaceS localName => ⟨localName, "*", src⟩

/-- Second loop of `visit_module_items`: collect a `WorkflowImportInfo` per
specifier of every import whose source starts with a relative-path marker. -/
def collectImports (info : CollectedInfo) (items : Module) : CollectedInfo :=
  items.foldl
    (fun info item =>
      match item with
      | .moduleDecl (.importD imp) =>
          if isRelativeSrc imp.src then
            { info with workflowImports :=
                info.workflowImports ++
                  imp.specifiers.map (importInfoOfSpecifier imp.src) }
          else info
      | _ => info)
    info

/-- Third loop of `visit_module_items`: visit each item, stamping the export
flags around export declarations. -/
def collectItems (info : CollectedInfo) (items : Module) : CollectedInfo :=
  items.foldl
    (fun info item =>
      match item with
      | .moduleDecl (.exportDecl d) => collectDecl true false info d
      | .moduleDecl (.exportDefaultDecl dd) =>
          match dd with
          | .fn _ (.mk _ (some body) _) => collectStmts true true info body
          | _ => info
      | .stmt s => collectStmt false false info s
      | .moduleDecl (.importD _) => info
      | .moduleDecl (.unknownMD _) => info)
    info

/-- The complete first pass (`Collector` run over a module): the three loops of
`visit_module_items` in order. -/
def collect (m : Module) : CollectedInfo :=
  let info := emptyInfo
  let info := { info with
    hasModuleWorkflowDirective := moduleHasTopLevelWorkflowDirective m }
  let info := collectImports info m
  collectItems info m

/-!  ## Transformer (`transform.rs`)  -/

/-- Recognize a call whose callee is a bare identifier registered as a step
function (`WorkflowTransformer::is_step_fn_call`). -/
def isStepFnCall (info : CollectedInfo) (callee : Callee) : Option String :=
  match callee with
  | .expr (.ident name) =>
      if stepContainsKey info.stepFns name then some name else none
  | _ => none

/-- Recognize a call whose callee is a reserved bare identifier
(`WorkflowTransformer::is_special_call`). -/
def isSpecialCall (callee : Callee) : Option String :=
  match callee with
  | .expr (.ident name) =>
      if name == "invoke" || name == "sleep" || name == "waitForCallback" then
        some name
      else none
  | _ => none

/-- Membership of a name in the collected step names
(`WorkflowTransformer::is_step_fn_name`). -/
def isStepFnName (info : CollectedInfo) (name : String) : Bool :=
  info.stepFnNames.any (fun n => n == name)

/-- Lookup of a collected workflow function by name
(`WorkflowTransformer::find_workflow_fn`). -/
def findWorkflowFn (info : CollectedInfo) (name : String) :
    Option WorkflowFnInfo :=
  info.workflowFns.find? (fun w => w.name == name)

/-- The step-call branch at the top of `transform_expr`: when the callee is a
registered step name whose info is present, the whole call is replaced by
`ctx.step(name, async () => { body minus its "use step" directives })`. -/
def stepInlineResult (info : CollectedInfo) (callee : Callee) : Option Expr :=
  match isStepFnCall info callee with
  | some stepName =>
      match stepGet info.stepFns stepName with
      | some stepInfo =>
          some (createCtxStepCall stepName
            (stepInfo.body.filter (fun s => !isUseStepDirective s)))
      | none => none
  | none => none

mutual

/-- The per-expression rewrite (`transform_expr`): step calls are inlined,
reserved calls are rewritten to SDK primitives, other calls have their
arguments rewritten recursively, `await`/assignment recurse into the inner /
right-hand expression, and every other expression kind is returned
unchanged. -/
def transformExpr (info : CollectedInfo) : Expr → Expr
  | .call callee args =>
      match stepInlineResult info callee with
      | some replaced => replaced
      | none =>
          match isSpecialCall callee with
          | some specialName =>
              if specialName == "invoke" then
                match args with
                | a0 :: a1 :: _ => createInvokeStep a0.expr a1.expr
                | _ => .call callee (transformArgs info args)
              else if specialName == "sleep" then
                match args with
                | a :: _ => createCtxWaitCall a.expr
                | [] => .call callee (transformArgs info args)
              else if specialName == "waitForCallback" then
                createCtxWaitForCallbackCall args
              else .call callee (transformArgs info args)
          | none => .call callee (transformArgs info args)
  | .awaitE a => .awaitE (transformExpr info a)
  | .assign l r => .assign l (transformExpr info r)
  | other => other

/-- Recursive rewrite of a call's argument list (the argument loop at the end
of `transform_expr`); the spread flag is preserved. -/
def transformArgs (info : CollectedInfo) : List ExprOrSpread → List ExprOrSpread
  | [] => []
  | .mk s e :: rest => .mk s (transformExpr info e) :: transformArgs info rest

end

/-- The per-statement rewrite (`transform_stmt`): expression statements,
variable declarations (each initializer) and return statements recurse into
their expressions; every other statement kind is cloned unchanged. -/
def transformStmt (info : CollectedInfo) : Stmt → Stmt
  | .expr e => .expr (transformExpr info e)
  | .decl (.var (.mk kind decls)) =>
      .decl (.var (.mk kind (decls.map (fun d =>
        match d with
        | .mk name init => .mk name (init.map (transformExpr info))))))
  | .ret arg => .ret (arg.map (transformExpr info))
  | other => other

/-- The body rewrite (`transform_workflow_body`): strip `"use workflow"` and
`"use step"` directive statements, then rewrite each remaining statement. -/
def transformWorkflowBody (info : CollectedInfo) (stmts : List Stmt) :
    List Stmt :=
  (stmts.filter
    (fun s => !isUseWorkflowDirective s && !isUseStepDirective s)).map
    (transformStmt info)

/-- Extract a block body from an arrow or function expression
(`extract_arrow_body` in `transform.rs`). -/
def extractArrowBody (e : Expr) : Option (List Stmt) :=
  match e with
  | .arrow _ (.blockStmt block) _ => some block
  | .arrow _ (.expr _) _ => none
  | .fnE _ (.mk _ body _) => body
  | _ => none

/-- The wrappers generated from the declarators of one variable declaration
(the declarator loop of the two var-declaration arms of
`transform_workflow_module`): one wrapper per declarator whose identifier is a
registered workflow name and whose initializer yields a block body.  The
non-export arm passes `(false, false)` for the export flags, the export arm
passes `(true, wf.is_default_export)`. -/
def workflowVarWrappers (info : CollectedInfo) (exported : Bool)
    (decls : List VarDeclarator) : List ModuleItem :=
  decls.filterMap (fun d =>
    match d with
    | .mk (.ident name) (some init) =>
        match findWorkflowFn info name with
        | some wf =>
            match extractArrowBody init with
            | some body =>
                some (createWithDurableExecutionCall wf.name
                  (transformWorkflowBody info body) exported
                  (exported && wf.isDefaultExport))
            | none => none
        | none => none
    | _ => none)

/-- The items pushed for one original module item by the drain loop of
`transform_workflow_module`: directives are dropped, step declarations are
dropped, workflow declarations are replaced by wrappers, and everything else
is kept verbatim. -/
def processWorkflowItem (info : CollectedInfo) (item : ModuleItem) :
    List ModuleItem :=
  match item with
  | .stmt s =>
      if isUseWorkflowDirective s then []
      else
        match s with
        | .decl (.fn name f) =>
            if isStepFnName info name then []
            else
              match findWorkflowFn info name with
              | some wf =>
                  match f with
                  | .mk _ (some body) _ =>
                      [createWithDurableExecutionCall wf.name
                        (transformWorkflowBody info body) false false]
                  | .mk _ none _ => []
              | none => [item]
        | .decl (.var (.mk _ decls)) =>
            if decls.any (fun d =>
                match d with
                | .mk (.ident n) _ => isStepFnName info n
                | _ => false) then []
            else
              let wrappers := workflowVarWrappers info false decls
              if wrappers.isEmpty then [item] else wrappers
        | _ => [item]
  | .moduleDecl (.exportDecl (.fn name f)) =>
      match findWorkflowFn info name with
      | some wf =>
          match f with
          | .mk _ (some body) _ =>
              [createWithDurableExecutionCall wf.name
                (transformWorkflowBody info body) true wf.isDefaultExport]
          | .mk _ none _ => []
      | none => [item]
  | .moduleDecl (.exportDecl (.var (.mk _ decls))) =>
      let wrappers := workflowVarWrappers info true decls
      if wrappers.isEmpty then [item] else wrappers
  | _ => [item]

/-- Workflow-mode module transformation (`transform_workflow_module`): short
circuit when nothing was collected; otherwise prepend the SDK import (plus the
Lambda SDK import iff `hasInvoke`), drain the original items through
`processWorkflowItem`, and append the `__workflowMeta` export when a workflow
function was collected. -/
def transformWorkflowModule (info : CollectedInfo) (config : PluginConfig)
    (items : Module) : Module :=
  if info.workflowFns.isEmpty && !info.hasModuleWorkflowDirective then items
  else
    let newItems : Module :=
      [createSdkImport config.packageName]
        ++ (if info.hasInvoke then [createLambdaSdkImport] else [])
        ++ items.flatMap (processWorkflowItem info)
    newItems ++
      (match info.workflowFns with
       | wf :: _ => [createWorkflowMetaExport wf.name (stepKeys info.stepFns)]
       | [] => [])

/-!  ## Transformer, client mode  -/

/-- The source paths that carry collected relative imports (the
`workflow_sources` set; only membership is consumed, so deduplication is
immaterial). -/
def workflowSources (info : CollectedInfo) : List String :=
  info.workflowImports.map (fun i => i.source)

/-- The local name bound by an import specifier (the match inside the client
drain loop). -/
def specifierLocalName : ImportSpecifier → String
  | .named l _ => l
  | .defaultS l => l
  | .namespaceS l => l

/-- The client-mode drain loop: returns the surviving items and the generated
descriptor declarations, both in original order. -/
def clientDrain (info : CollectedInfo) (config : PluginConfig) :
    List ModuleItem → (List ModuleItem × List ModuleItem)
  | [] => ([], [])
  | item :: rest =>
      let (ni, ds) := clientDrain info config rest
      match item with
      | .moduleDecl (.importD imp) =>
          if (workflowSources info).contains imp.src then
            (ni, imp.specifiers.map (fun sp =>
              createWorkflowDescriptor (specifierLocalName sp) config.envPfx)
              ++ ds)
          else (item :: ni, ds)
      | _ => (item :: ni, ds)

/-- Is a module item an import declaration? (the predicate used to place the
descriptor block). -/
def isImportItem : ModuleItem → Bool
  | .moduleDecl (.importD _) => true
  | _ => false

/-- Client-mode module transformation (`transform_client_module`). -/
def transformClientModule (info : CollectedInfo) (config : PluginConfig)
    (items : Module) : Module :=
  if info.workflowImports.isEmpty then items
  else
    let (newItems, descriptors) := clientDrain info config items
    let firstNonImport := newItems.findIdx (fun it => !isImportItem it)
    newItems.take firstNonImport ++ descriptors ++ newItems.drop firstNonImport

/-- The whole pass (`TransformPass::visit_mut_module`): collect, then dispatch
on the configured mode. -/
def transformProgram (config : PluginConfig) (m : Module) : Module :=
  let info := collect m
  match config.mode with
  | .workflow => transformWorkflowModule info config m
  | .client => transformClientModule info config m

/-!  ## Inspectors

Bool-valued observation functions over modules, used to state concrete facts
about transformation outputs (mirroring the helper assertions of the Rust unit
tests). -/

/-- Does the module contain an import declaration from the given source? -/
def hasImport (m : Module) (src : String) : Bool :=
  m.any (fun item =>
    match item with
    | .moduleDecl (.importD imp) => imp.src == src
    | _ => false)

/-- Does the module contain a standalone function declaration (plain or
export-wrapped) with the given name? -/
def declaresFn (m : Module) (name : String) : Bool :=
  m.any (fun item =>
    match item with
    | .stmt (.decl (.fn n _)) => n == name
    | .moduleDecl (.exportDecl (.fn n _)) => n == name
    | _ => false)

/-- Does the module contain an export-wrapped `const`/`let`/`var` declaration
binding the given name? -/
def hasExportNamed (m : Module) (name : String) : Bool :=
  m.any (fun item =>
    match item with
    | .moduleDecl (.exportDecl (.var (.mk _ decls))) =>
        decls.any (fun d =>
          match d with
          | .mk (.ident n) _ => n == name
          | _ => false)
    | _ => false)

/-- Number of module items that are single-declarator variable declarations
(plain or export-wrapped) initialized with a call to the bare identifier
`withDurableExecution`, i.e. generated durable-execution wrappers. -/
def countDurableWrappers (m : Module) : Nat :=
  (m.filter (fun item =>
    match item with
    | .stmt (.decl (.var (.mk _ [.mk (.ident _) (some (.call (.expr (.ident n)) _))]))) =>
        n == "withDurableExecution"
    | .moduleDecl (.exportDecl (.var (.mk _ [.mk (.ident _) (some (.call (.expr (.ident n)) _))]))) =>
        n == "withDurableExecution"
    | _ => false)).length

/-- Is a module item export-wrapped? -/
def isExportedItem : ModuleItem → Bool
  | .moduleDecl (.exportDecl _) => true
  | .moduleDecl (.exportDefaultDecl _) => true
  | _ => false

/-!  ## Spec-side predicates

`specCall*` formalizes the specification sentence "the corresponding reserved
call name appears anywhere in the module, including inside workflow and step
bodies and inside nested call arguments": a full recursive scan for a call
expression whose callee is the given bare identifier, descending into every
modeled child including call callees.  It deliberately follows the wording of
the spec, not the pruned traversal of the collector, so that the two can be
compared. -/

/-- Is the callee the given bare identifier? -/
def calleeIsIdentN (n : String) : Callee → Bool
  | .expr (.ident m) => m == n
  | _ => false

mutual

/-- Spec-side occurrence of a call to the bare identifier `n` anywhere inside
an expression. -/
def specCallExpr (n : String) : Expr → Bool
  | .ident _ => false
  | .lit _ => false
  | .call callee args =>
      calleeIsIdentN n callee || specCallCallee n callee || specCallArgs n args
  | .newE callee args =>
      specCallExpr n callee ||
        (match args with
         | some l => specCallArgs n l
         | none => false)
  | .awaitE a => specCallExpr n a
  | .assign l r => specCallExpr n l || specCallExpr n r
  | .arrow _ body _ => specCallBOE n body
  | .fnE _ f => specCallFunction n f
  | .member obj _ => specCallExpr n obj
  | .object props => specCallProps n props
  | .array elems => specCallArgs n elems
  | .unknownE _ => false

/-- Spec-side occurrence inside a callee. -/
def specCallCallee (n : String) : Callee → Bool
  | .expr e => specCallExpr n e
  | .unknownC _ => false

/-- Spec-side occurrence inside an argument list. -/
def specCallArgs (n : String) : List ExprOrSpread → Bool
  | [] => false
  | .mk _ e :: rest => specCallExpr n e || specCallArgs n rest

/-- Spec-side occurrence inside object properties. -/
def specCallProps (n : String) : List PropKV → Bool
  | [] => false
  | .keyValue _ v :: rest => specCallExpr n v || specCallProps n rest
  | .unknownP _ :: rest => specCallProps n rest

/-- Spec-side occurrence inside an arrow body. -/
def specCallBOE (n : String) : BlockStmtOrExpr → Bool
  | .blockStmt stmts => specCallStmts n stmts
  | .expr e => specCallExpr n e

/-- Spec-side occurrence inside a function node. -/
def specCallFunction (n : String) : FunctionB → Bool
  | .mk _ (some body) _ => specCallStmts n body
  | .mk _ none _ => false

/-- Spec-side occurrence inside a statement list. -/
def specCallStmts (n : String) : List Stmt → Bool
  | [] => false
  | s :: rest => specCallStmt n s || specCallStmts n rest

/-- Spec-side occurrence inside one statement. -/
def specCallStmt (n : String) : Stmt → Bool
  | .expr e => specCallExpr n e
  | .decl d => specCallDecl n d
  | .ret (some e) => specCallExpr n e
  | .ret none => false
  | .unknownS _ => false

/-- Spec-side occurrence inside a declaration. -/
def specCallDecl (n : String) : Decl → Bool
  | .fn _ f => specCallFunction n f
  | .var (.mk _ decls) => specCallVarDecls n decls
  | .unknownD _ => false

/-- Spec-side occurrence inside one variable declarator. -/
def specCallVarDeclarator (n : String) : VarDeclarator → Bool
  | .mk _ (some init) => specCallExpr n init
  | .mk _ none => false

/-- Spec-side occurrence inside a declarator list. -/
def specCallVarDecls (n : String) : List VarDeclarator → Bool
  | [] => false
  | d :: rest => specCallVarDeclarator n d || specCallVarDecls n rest

end

/-- Spec-side occurrence inside one module item. -/
def specCallItem (n : String) : ModuleItem → Bool
  | .stmt s => specCallStmt n s
  | .moduleDecl (.exportDecl d) => specCallDecl n d
  | .moduleDecl (.exportDefaultDecl (.fn _ f)) => specCallFunction n f
  | _ => false

/-- Does a call to the bare identifier `n` appear anywhere in the module (the
spec reading of the `hasInvoke` / `hasSleep` / `hasWaitForCallback` flags)? -/
def specModuleContainsReservedCall (n : String) (m : Module) : Bool :=
  m.any (specCallItem n)

/-!  The `wfDirFree*` family formalizes the hypothesis of the claim "zero
function-body workflow directives": every function body block occurring
anywhere in the term is free of top-level `"use workflow"` directives. -/

mutual

/-- All function bodies inside the expression are free of workflow
directives. -/
def wfDirFreeExpr : Expr → Bool
  | .ident _ => true
  | .lit _ => true
  | .call callee args => wfDirFreeCallee callee && wfDirFreeArgs args
  | .newE callee args =>
      wfDirFreeExpr callee &&
        (match args with
         | some l => wfDirFreeArgs l
         | none => true)
  | .awaitE a => wfDirFreeExpr a
  | .assign l r => wfDirFreeExpr l && wfDirFreeExpr r
  | .arrow _ body _ => wfDirFreeBOE body
  | .fnE _ f => wfDirFreeFunction f
  | .member obj _ => wfDirFreeExpr obj
  | .object props => wfDirFreeProps props
  | .array elems => wfDirFreeArgs elems
  | .unknownE _ => true

/-- All function bodies inside the callee are free of workflow directives. -/
def wfDirFreeCallee : Callee → Bool
  | .expr e => wfDirFreeExpr e
  | .unknownC _ => true

/-- All function bodies inside the argument list are free of workflow
directives. -/
def wfDirFreeArgs : List ExprOrSpread → Bool
  | [] => true
  | .mk _ e :: rest => wfDirFreeExpr e && wfDirFreeArgs rest

/-- All function bodies inside the property list are free of workflow
directives. -/
def wfDirFreeProps : List PropKV → Bool
  | [] => true
  | .keyValue _ v :: rest => wfDirFreeExpr v && wfDirFreeProps rest
  | .unknownP _ :: rest => wfDirFreeProps rest

/-- An arrow body is a function body: its own block must be directive-free,
and so must every nested function body. -/
def wfDirFreeBOE : BlockStmtOrExpr → Bool
  | .blockStmt stmts => !blockHasWorkflowDirective stmts && wfDirFreeStmts stmts
  | .expr e => wfDirFreeExpr e

/-- A function body block must be directive-free, and so must every nested
function body. -/
def wfDirFreeFunction : FunctionB → Bool
  | .mk _ (some body) _ => !blockHasWorkflowDirective body && wfDirFreeStmts body
  | .mk _ none _ => true

/-- All function bodies inside the statement list are free of workflow
directives. -/
def wfDirFreeStmts : List Stmt → Bool
  | [] => true
  | s :: rest => wfDirFreeStmt s && wfDirFreeStmts rest

/-- All function bodies inside one statement are free of workflow
directives. -/
def wfDirFreeStmt : Stmt → Bool
  | .expr e => wfDirFreeExpr e
  | .decl d => wfDirFreeDecl d
  | .ret (some e) => wfDirFreeExpr e
  | .ret none => true
  | .unknownS _ => true

/-- All function bodies inside a declaration are free of workflow
directives. -/
def wfDirFreeDecl : Decl → Bool
  | .fn _ f => wfDirFreeFunction f
  | .var (.mk _ decls) => wfDirFreeVarDecls decls
  | .unknownD _ => true

/-- All function bodies inside one declarator are free of workflow
directives. -/
def wfDirFreeVarDeclarator : VarDeclarator → Bool
  | .mk _ (some init) => wfDirFreeExpr init
  | .mk _ none => true

/-- All function bodies inside a declarator list are free of workflow
directives. -/
def wfDirFreeVarDecls : List VarDeclarator → Bool
  | [] => true
  | d :: rest => wfDirFreeVarDeclarator d && wfDirFreeVarDecls rest

end

/-- All function bodies inside one module item are free of workflow
directives. -/
def wfDirFreeItem : ModuleItem → Bool
  | .stmt s => wfDirFreeStmt s
  | .moduleDecl (.exportDecl d) => wfDirFreeDecl d
  | .moduleDecl (.exportDefaultDecl (.fn _ f)) => wfDirFreeFunction f
  | _ => true

/-- The module contains zero function-body workflow directives: every
function body block anywhere inside it is free of top-level `"use workflow"`
directives. -/
def moduleFnBodiesWorkflowDirectiveFree (m : Module) : Bool :=
  m.all wfDirFreeItem

/-!  ## Soundness infrastructure for the collector flags

`ScanStep f g spc` says: any reserved flag set in `g` was either already set
in `f` or is justified by a spec-side occurrence (`spc`).  `CollectStep`
extends this to the full fact sheet, adding frame conditions for the
module-directive flag and the import list, conditional preservation of
`workflowFns` emptiness under directive-freeness, and preservation of the
step-name agreement invariant. -/

/-- The three reserved call names. -/
def reservedName (n : String) : Prop :=
  n = "invoke" ∨ n = "sleep" ∨ n = "waitForCallback"

/-- The scanner flag corresponding to a reserved name. -/
def flagOfScan (n : String) (f : ScanFlags) : Bool :=
  if n == "invoke" then f.hasInvoke
  else if n == "sleep" then f.hasSleep
  else f.hasWaitForCallback

/-- The fact-sheet flag corresponding to a reserved name. -/
def flagOfInfo (n : String) (i : CollectedInfo) : Bool :=
  if n == "invoke" then i.hasInvoke
  else if n == "sleep" then i.hasSleep
  else i.hasWaitForCallback

/-- One scanner step is sound for the occurrence predicate `spc`. -/
def ScanStep (f g : ScanFlags) (spc : String → Bool) : Prop :=
  ∀ n, reservedName n → flagOfScan n g = true → flagOfScan n f = true ∨ spc n = true

theorem scanStep_id (f : ScanFlags) (spc : String → Bool) : ScanStep f f spc :=
  fun _ _ h => Or.inl h

theorem scanStep_mono {f g : ScanFlags} {s1 s2 : String → Bool}
    (hs : ∀ n, s1 n = true → s2 n = true) (h : ScanStep f g s1) :
    ScanStep f g s2 :=
  fun n hr hf => (h n hr hf).elim Or.inl (fun x => Or.inr (hs n x))

theorem scanStep_comp {f g h : ScanFlags} {s1 s2 : String → Bool}
    (h1 : ScanStep f g s1) (h2 : ScanStep g h s2) :
    ScanStep f h (fun n => s1 n || s2 n) := by
  intro n hr hf
  rcases h2 n hr hf with hg | hs2
  · rcases h1 n hr hg with hff | hs1
    · exact Or.inl hff
    · exact Or.inr (by simp [hs1])
  · exact Or.inr (by simp [hs2])

theorem scanCalleeFlags_step (f : ScanFlags) (c : Callee) :
    ScanStep f (scanCalleeFlags f c) (fun n => calleeIsIdentN n c) := by
  intro n hr hf
  cases c with
  | unknownC t => exact Or.inl hf
  | expr e =>
      cases e with
      | ident m =>
          simp only [scanCalleeFlags] at hf
          simp only [calleeIsIdentN]
          rcases hr with rfl | rfl | rfl <;>
            (by_cases h1 : (m == "invoke") = true <;>
             by_cases h2 : (m == "sleep") = true <;>
             by_cases h3 : (m == "waitForCallback") = true <;>
             simp [h1, h2, h3, flagOfScan] at hf ⊢ <;> tauto)
      | lit l => exact Or.inl hf
      | call c2 a2 => exact Or.inl hf
      | newE c2 a2 => exact Or.inl hf
      | awaitE a2 => exact Or.inl hf
      | assign l2 r2 => exact Or.inl hf
      | arrow p2 b2 i2 => exact Or.inl hf
      | fnE n2 f2 => exact Or.inl hf
      | member o2 p2 => exact Or.inl hf
      | object p2 => exact Or.inl hf
      | array e2 => exact Or.inl hf
      | unknownE t2 => exact Or.inl hf

mutual

theorem scanExpr_sound (f : ScanFlags) (x : Expr) :
    ScanStep f (scanExpr f x) (fun n => specCallExpr n x) := by
  cases x with
  | ident m => exact scanStep_id f _
  | lit l => exact scanStep_id f _
  | call callee args =>
      refine scanStep_mono ?_
        (scanStep_comp (scanCalleeFlags_step f callee)
          (scanArgs_sound (scanCalleeFlags f callee) args))
      intro n hn
      simp only [specCallExpr, Bool.or_eq_true] at hn ⊢
      tauto
  | newE callee args =>
      cases args with
      | none =>
          refine scanStep_mono ?_ (scanExpr_sound f callee)
          intro n hn
          simp [specCallExpr, hn]
      | some l =>
          refine scanStep_mono ?_
            (scanStep_comp (scanExpr_sound f callee)
              (scanArgs_sound (scanExpr f callee) l))
          intro n hn
          simp only [specCallExpr, Bool.or_eq_true] at hn ⊢
          tauto
  | awaitE a => exact scanExpr_sound f a
  | assign l r =>
      refine scanStep_mono ?_
        (scanStep_comp (scanExpr_sound f l) (scanExpr_sound (scanExpr f l) r))
      intro n hn
      simp only [specCallExpr, Bool.or_eq_true] at hn ⊢
      tauto
  | arrow params body isA => exact scanBOE_sound f body
  | fnE name fn => exact scanFunction_sound f fn
  | member obj prop => exact scanExpr_sound f obj
  | object props => exact scanProps_sound f props
  | array elems => exact scanArgs_sound f elems
  | unknownE t => exact scanStep_id f _

theorem scanArgs_sound (f : ScanFlags) (l : List ExprOrSpread) :
    ScanStep f (scanArgs f l) (fun n => specCallArgs n l) := by
  cases l with
  | nil => exact scanStep_id f _
  | cons a rest =>
      cases a with
      | mk s e =>
          refine scanStep_mono ?_
            (scanStep_comp (scanExpr_sound f e) (scanArgs_sound (scanExpr f e) rest))
          intro n hn
          simp only [specCallArgs, Bool.or_eq_true] at hn ⊢
          tauto

theorem scanProps_sound (f : ScanFlags) (l : List PropKV) :
    ScanStep f (scanProps f l) (fun n => specCallProps n l) := by
  cases l with
  | nil => exact scanStep_id f _
  | cons p rest =>
      cases p with
      | keyValue k v =>
          refine scanStep_mono ?_
            (scanStep_comp (scanExpr_sound f v) (scanProps_sound (scanExpr f v) rest))
          intro n hn
          simp only [specCallProps, Bool.or_eq_true] at hn ⊢
          tauto
      | unknownP t =>
          refine scanStep_mono ?_ (scanProps_sound f rest)
          intro n hn
          simp [specCallProps, hn]

theorem scanBOE_sound (f : ScanFlags) (b : BlockStmtOrExpr) :
    ScanStep f (scanBlockOrExpr f b) (fun n => specCallBOE n b) := by
  cases b with
  | blockStmt stmts => exact scanStmts_sound f stmts
  | expr e => exact scanExpr_sound f e

theorem scanFunction_sound (f : ScanFlags) (fn : FunctionB) :
    ScanStep f (scanFunction f fn) (fun n => specCallFunction n fn) := by
  cases fn with
  | mk params body isA =>
      cases body with
      | some b => exact scanStmts_sound f b
      | none => exact scanStep_id f _

theorem scanStmts_sound (f : ScanFlags) (l : List Stmt) :
    ScanStep f (scanStmts f l) (fun n => specCallStmts n l) := by
  cases l with
  | nil => exact scanStep_id f _
  | cons s rest =>
      refine scanStep_mono ?_
        (scanStep_comp (scanStmt_sound f s) (scanStmts_sound (scanStmt f s) rest))
      intro n hn
      simp only [specCallStmts, Bool.or_eq_true] at hn ⊢
      tauto

theorem scanStmt_sound (f : ScanFlags) (s : Stmt) :
    ScanStep f (scanStmt f s) (fun n => specCallStmt n s) := by
  cases s with
  | expr e => exact scanExpr_sound f e
  | decl d => exact scanDecl_sound f d
  | ret arg =>
      cases arg with
      | some e => exact scanExpr_sound f e
      | none => exact scanStep_id f _
  | unknownS t => exact scanStep_id f _

theorem scanDecl_sound (f : ScanFlags) (d : Decl) :
    ScanStep f (scanDecl f d) (fun n => specCallDecl n d) := by
  cases d with
  | fn name fn => exact scanFunction_sound f fn
  | var v =>
      cases v with
      | mk kind decls => exact scanVarDeclarators_sound f decls
  | unknownD t => exact scanStep_id f _

theorem scanVarDeclarators_sound (f : ScanFlags) (l : List VarDeclarator) :
    ScanStep f (scanVarDeclarators f l) (fun n => specCallVarDecls n l) := by
  cases l with
  | nil => exact scanStep_id f _
  | cons d rest =>
      cases d with
      | mk pat init =>
          cases init with
          | some e =>
              refine scanStep_mono ?_
                (scanStep_comp (scanExpr_sound f e)
                  (scanVarDeclarators_sound (scanExpr f e) rest))
              intro n hn
              simp only [specCallVarDecls, specCallVarDeclarator,
                Bool.or_eq_true] at hn ⊢
              tauto
          | none =>
              refine scanStep_mono ?_ (scanVarDeclarators_sound f rest)
              intro n hn
              simp [specCallVarDecls, specCallVarDeclarator, hn]

end

/-- Agreement between the key set of the `stepFns` map and the `stepFnNames`
list (the two are updated together at every registration site). -/
def stepNamesAgree (i : CollectedInfo) : Prop :=
  ∀ s, s ∈ stepKeys i.stepFns ↔ s ∈ i.stepFnNames

/-- One collector step: frame conditions for the module-directive flag and
the collected workflowImports, conditional preservation of `workflowFns` under
directive-freeness `ff`, preservation of step-name agreement, and soundness of
the reserved flags for the occurrence predicate `spc`. -/
def CollectStep (i g : CollectedInfo) (ff : Bool) (spc : String → Bool) : Prop :=
  g.hasModuleWorkflowDirective = i.hasModuleWorkflowDirective ∧
  g.workflowImports = i.workflowImports ∧
  (ff = true → g.workflowFns = i.workflowFns) ∧
  (stepNamesAgree i → stepNamesAgree g) ∧
  ∀ n, reservedName n → flagOfInfo n g = true →
    flagOfInfo n i = true ∨ spc n = true

theorem collectStep_id (i : CollectedInfo) (ff : Bool) (spc : String → Bool) :
    CollectStep i i ff spc :=
  ⟨rfl, rfl, fun _ => rfl, id, fun _ _ h => Or.inl h⟩

theorem collectStep_mono {i g : CollectedInfo} {ff1 ff2 : Bool}
    {s1 s2 : String → Bool} (hff : ff2 = true → ff1 = true)
    (hs : ∀ n, s1 n = true → s2 n = true) (h : CollectStep i g ff1 s1) :
    CollectStep i g ff2 s2 := by
  obtain ⟨h1, h2, h3, h4, h5⟩ := h
  refine ⟨h1, h2, fun hf => h3 (hff hf), h4, fun n hr hf => ?_⟩
  rcases h5 n hr hf with hh | hh
  · exact Or.inl hh
  · exact Or.inr (hs n hh)

theorem collectStep_comp {i j k : CollectedInfo} {ff1 ff2 : Bool}
    {s1 s2 : String → Bool} (h1 : CollectStep i j ff1 s1)
    (h2 : CollectStep j k ff2 s2) :
    CollectStep i k (ff1 && ff2) (fun n => s1 n || s2 n) := by
  obtain ⟨a1, a2, a3, a4, a5⟩ := h1
  obtain ⟨b1, b2, b3, b4, b5⟩ := h2
  refine ⟨b1.trans a1, b2.trans a2, ?_, fun h => b4 (a4 h), fun n hr hf => ?_⟩
  · intro hf
    rw [Bool.and_eq_true] at hf
    exact (b3 hf.2).trans (a3 hf.1)
  · rcases b5 n hr hf with hj | hs2
    · rcases a5 n hr hj with hi | hs1
      · exact Or.inl hi
      · exact Or.inr (by simp [hs1])
    · exact Or.inr (by simp [hs2])

theorem stepKeys_insert (m : List (String × StepFnInfo)) (k : String)
    (v : StepFnInfo) :
    ∀ s, s ∈ stepKeys (stepInsert m k v) ↔ (s ∈ stepKeys m ∨ s = k) := by
  intro s
  unfold stepInsert
  by_cases hc : stepContainsKey m k = true
  · have hkeys : stepKeys (m.map (fun p => if p.1 == k then (k, v) else p)) =
        stepKeys m := by
      unfold stepKeys
      rw [List.map_map]
      refine List.map_congr_left ?_
      intro p _
      by_cases hp : p.1 = k
      · simp [Function.comp_apply, hp]
      · simp [Function.comp_apply, hp]
    have hkm : k ∈ stepKeys m := by
      unfold stepContainsKey at hc
      rw [List.any_eq_true] at hc
      obtain ⟨p, hp, hpk⟩ := hc
      have : p.1 = k := eq_of_beq hpk
      exact this ▸ List.mem_map_of_mem _ hp
    simp only [hc, if_true, hkeys]
    constructor
    · exact Or.inl
    · rintro (h | rfl)
      · exact h
      · exact hkm
  · simp only [hc, if_false]
    unfold stepKeys
    simp [List.map_append]

theorem collectCalleeFlags_step (i : CollectedInfo) (c : Callee) :
    CollectStep i (collectCalleeFlags i c) true (fun n => calleeIsIdentN n c) := by
  cases c with
  | unknownC t => exact collectStep_id i _ _
  | expr e =>
      cases e with
      | ident m =>
          refine ⟨?_, ?_, ?_, ?_, ?_⟩
          · simp only [collectCalleeFlags]
            by_cases h1 : (m == "invoke") = true <;>
              by_cases h2 : (m == "sleep") = true <;>
              by_cases h3 : (m == "waitForCallback") = true <;>
              simp [h1, h2, h3]
          · simp only [collectCalleeFlags]
            by_cases h1 : (m == "invoke") = true <;>
              by_cases h2 : (m == "sleep") = true <;>
              by_cases h3 : (m == "waitForCallback") = true <;>
              simp [h1, h2, h3]
          · intro _
            simp only [collectCalleeFlags]
            by_cases h1 : (m == "invoke") = true <;>
              by_cases h2 : (m == "sleep") = true <;>
              by_cases h3 : (m == "waitForCallback") = true <;>
              simp [h1, h2, h3]
          · intro h
            unfold stepNamesAgree at h ⊢
            simp only [collectCalleeFlags]
            by_cases h1 : (m == "invoke") = true <;>
              by_cases h2 : (m == "sleep") = true <;>
              by_cases h3 : (m == "waitForCallback") = true <;>
              simpa [h1, h2, h3] using h
          · intro n hr hf
            simp only [collectCalleeFlags] at hf
            simp only [calleeIsIdentN]
            rcases hr with rfl | rfl | rfl <;>
              (by_cases h1 : (m == "invoke") = true <;>
               by_cases h2 : (m == "sleep") = true <;>
               by_cases h3 : (m == "waitForCallback") = true <;>
               simp [h1, h2, h3, flagOfInfo] at hf ⊢ <;> tauto)
      | lit l => exact collectStep_id i _ _
      | call c2 a2 => exact collectStep_id i _ _
      | newE c2 a2 => exact collectStep_id i _ _
      | awaitE a2 => exact collectStep_id i _ _
      | assign l2 r2 => exact collectStep_id i _ _
      | arrow p2 b2 i2 => exact collectStep_id i _ _
      | fnE n2 f2 => exact collectStep_id i _ _
      | member o2 p2 => exact collectStep_id i _ _
      | object p2 => exact collectStep_id i _ _
      | array e2 => exact collectStep_id i _ _
      | unknownE t2 => exact collectStep_id i _ _

/-- An all-false scanner flag evaluates to false for every name. -/
theorem flagOfScan_false (n : String) :
    flagOfScan n ⟨false, false, false⟩ = false := by
  unfold flagOfScan
  by_cases h1 : (n == "invoke") = true <;>
    by_cases h2 : (n == "sleep") = true <;> simp [h1, h2]

theorem scanBlockForSpecialCalls_step (i : CollectedInfo) (b : List Stmt) :
    CollectStep i (scanBlockForSpecialCalls i b) true
      (fun n => specCallStmts n b) := by
  refine ⟨rfl, rfl, fun _ => rfl, fun h => h, fun n hr hf => ?_⟩
  have hscan := scanStmts_sound ⟨false, false, false⟩ b
  rcases hr with rfl | rfl | rfl
  · have hf2 : (i.hasInvoke ||
        (scanStmts ⟨false, false, false⟩ b).hasInvoke) = true := hf
    rw [Bool.or_eq_true] at hf2
    rcases hf2 with h | h
    · exact Or.inl h
    · rcases hscan "invoke" (Or.inl rfl) h with hcontra | hspec
      · exact absurd hcontra (by decide)
      · exact Or.inr hspec
  · have hf2 : (i.hasSleep ||
        (scanStmts ⟨false, false, false⟩ b).hasSleep) = true := hf
    rw [Bool.or_eq_true] at hf2
    rcases hf2 with h | h
    · exact Or.inl h
    · rcases hscan "sleep" (Or.inr (Or.inl rfl)) h with hcontra | hspec
      · exact absurd hcontra (by decide)
      · exact Or.inr hspec
  · have hf2 : (i.hasWaitForCallback ||
        (scanStmts ⟨false, false, false⟩ b).hasWaitForCallback) = true := hf
    rw [Bool.or_eq_true] at hf2
    rcases hf2 with h | h
    · exact Or.inl h
    · rcases hscan "waitForCallback" (Or.inr (Or.inr rfl)) h with hcontra | hspec
      · exact absurd hcontra (by decide)
      · exact Or.inr hspec

theorem collectStep_wfRegister (i : CollectedInfo) (x : WorkflowFnInfo) :
    CollectStep i { i with workflowFns := i.workflowFns ++ [x] } false
      (fun _ => false) := by
  refine ⟨rfl, rfl, fun h => absurd h Bool.false_ne_true, ?_,
    fun n hr hf => Or.inl hf⟩
  intro h
  exact h

theorem collectStep_stepRegister (i : CollectedInfo) (name : String)
    (v : StepFnInfo) :
    CollectStep i
      { i with stepFnNames := i.stepFnNames ++ [name],
               stepFns := stepInsert i.stepFns name v } true
      (fun _ => false) := by
  refine ⟨rfl, rfl, fun _ => rfl, ?_, fun n hr hf => Or.inl hf⟩
  intro h s
  have hk := stepKeys_insert i.stepFns name v s
  constructor
  · intro hx
    rcases hk.mp hx with hh | rfl
    · exact List.mem_append_left _ ((h s).mp hh)
    · exact List.mem_append_right _ (List.mem_singleton_self _)
  · intro hx
    rcases List.mem_append.mp hx with hh | hh
    · exact hk.mpr (Or.inl ((h s).mpr hh))
    · exact hk.mpr (Or.inr (List.mem_singleton.mp hh))

theorem collectFnDecl_step (e d : Bool) (i : CollectedInfo) (name : String)
    (f : FunctionB) :
    CollectStep i (collectFnDecl e d i name f) (wfDirFreeFunction f)
      (fun n => specCallFunction n f) := by
  cases f with
  | mk params body isA =>
      cases body with
      | none => exact collectStep_id i _ _
      | some b =>
          by_cases hw : blockHasWorkflowDirective b = true <;>
            by_cases hs : blockHasStepDirective b = true <;>
            simp only [collectFnDecl, hw, hs, if_true, if_false,
              Bool.false_eq_true, ite_true, ite_false]
          · exact collectStep_mono
              (by intro h; simp [wfDirFreeFunction, hw] at h)
              (by intro n hn; simpa [specCallFunction] using hn)
              (collectStep_comp (collectStep_comp
                (collectStep_wfRegister i ⟨name, e, d, isA⟩)
                (collectStep_stepRegister _ name ⟨name, b⟩))
                (scanBlockForSpecialCalls_step _ b))
          · exact collectStep_mono
              (by intro h; simp [wfDirFreeFunction, hw] at h)
              (by intro n hn; simpa [specCallFunction] using hn)
              (collectStep_comp (collectStep_wfRegister i ⟨name, e, d, isA⟩)
                (scanBlockForSpecialCalls_step _ b))
          · exact collectStep_mono
              (by intro _; rfl)
              (by intro n hn; simpa [specCallFunction] using hn)
              (collectStep_comp (collectStep_stepRegister i name ⟨name, b⟩)
                (scanBlockForSpecialCalls_step _ b))
          · exact collectStep_mono
              (by intro _; rfl)
              (by intro n hn; simpa [specCallFunction] using hn)
              (scanBlockForSpecialCalls_step i b)

theorem collectVarDeclarator_step (e d : Bool) (i : CollectedInfo)
    (dcl : VarDeclarator) :
    CollectStep i (collectVarDeclarator e d i dcl)
      (wfDirFreeVarDeclarator dcl) (fun n => specCallVarDeclarator n dcl) := by
  cases dcl with
  | mk pat init =>
      cases init with
      | none => exact collectStep_id i _ _
      | some x =>
          cases pat with
          | unknownPat t => exact collectStep_id i _ _
          | ident name =>
              cases x with
              | arrow params abody isA =>
                  cases abody with
                  | expr e2 => exact collectStep_id i _ _
                  | blockStmt b =>
                      by_cases hw : blockHasWorkflowDirective b = true <;>
                        by_cases hs : blockHasStepDirective b = true <;>
                        simp only [collectVarDeclarator, extractFnBody, hw, hs,
                          if_true, if_false, Bool.false_eq_true, ite_true,
                          ite_false]
                      · exact collectStep_mono
                          (by intro h
                              simp [wfDirFreeVarDeclarator, wfDirFreeExpr,
                                wfDirFreeBOE, hw] at h)
                          (by intro n hn
                              simpa [specCallVarDeclarator, specCallExpr,
                                specCallBOE] using hn)
                          (collectStep_comp (collectStep_comp
                            (collectStep_wfRegister i ⟨name, e, d, isA⟩)
                            (collectStep_stepRegister _ name ⟨name, b⟩))
                            (scanBlockForSpecialCalls_step _ b))
                      · exact collectStep_mono
                          (by intro h
                              simp [wfDirFreeVarDeclarator, wfDirFreeExpr,
                                wfDirFreeBOE, hw] at h)
                          (by intro n hn
                              simpa [specCallVarDeclarator, specCallExpr,
                                specCallBOE] using hn)
                          (collectStep_comp
                            (collectStep_wfRegister i ⟨name, e, d, isA⟩)
                            (scanBlockForSpecialCalls_step _ b))
                      · exact collectStep_mono
                          (by intro _; rfl)
                          (by intro n hn
                              simpa [specCallVarDeclarator, specCallExpr,
                                specCallBOE] using hn)
                          (collectStep_comp
                            (collectStep_stepRegister i name ⟨name, b⟩)
                            (scanBlockForSpecialCalls_step _ b))
                      · exact collectStep_mono
                          (by intro _; rfl)
                          (by intro n hn
                              simpa [specCallVarDeclarator, specCallExpr,
                                specCallBOE] using hn)
                          (scanBlockForSpecialCalls_step i b)
              | fnE fname ffn =>
                  cases ffn with
                  | mk params fbody isA =>
                      cases fbody with
                      | none => exact collectStep_id i _ _
                      | some b =>
                          by_cases hw : blockHasWorkflowDirective b = true <;>
                            by_cases hs : blockHasStepDirective b = true <;>
                            simp only [collectVarDeclarator, extractFnBody, hw,
                              hs, if_true, if_false, Bool.false_eq_true,
                              ite_true, ite_false]
                          · exact collectStep_mono
                              (by intro h
                                  simp [wfDirFreeVarDeclarator, wfDirFreeExpr,
                                    wfDirFreeFunction, hw] at h)
                              (by intro n hn
                                  simpa [specCallVarDeclarator, specCallExpr,
                                    specCallFunction] using hn)
                              (collectStep_comp (collectStep_comp
                                (collectStep_wfRegister i ⟨name, e, d, isA⟩)
                                (collectStep_stepRegister _ name ⟨name, b⟩))
                                (scanBlockForSpecialCalls_step _ b))
                          · exact collectStep_mono
                              (by intro h
                                  simp [wfDirFreeVarDeclarator, wfDirFreeExpr,
                                    wfDirFreeFunction, hw] at h)
                              (by intro n hn
                                  simpa [specCallVarDeclarator, specCallExpr,
                                    specCallFunction] using hn)
                              (collectStep_comp
                                (collectStep_wfRegister i ⟨name, e, d, isA⟩)
                                (scanBlockForSpecialCalls_step _ b))
                          · exact collectStep_mono
                              (by intro _; rfl)
                              (by intro n hn
                                  simpa [specCallVarDeclarator, specCallExpr,
                                    specCallFunction] using hn)
                              (collectStep_comp
                                (collectStep_stepRegister i name ⟨name, b⟩)
                                (scanBlockForSpecialCalls_step _ b))
                          · exact collectStep_mono
                              (by intro _; rfl)
                              (by intro n hn
                                  simpa [specCallVarDeclarator, specCallExpr,
                                    specCallFunction] using hn)
                              (scanBlockForSpecialCalls_step i b)
              | ident m => exact collectStep_id i _ _
              | lit l => exact collectStep_id i _ _
              | call c2 a2 => exact collectStep_id i _ _
              | newE c2 a2 => exact collectStep_id i _ _
              | awaitE a2 => exact collectStep_id i _ _
              | assign l2 r2 => exact collectStep_id i _ _
              | member o2 p2 => exact collectStep_id i _ _
              | object p2 => exact collectStep_id i _ _
              | array e2 => exact collectStep_id i _ _
              | unknownE t2 => exact collectStep_id i _ _

mutual

theorem collectExpr_step (e d : Bool) (i : CollectedInfo) (x : Expr) :
    CollectStep i (collectExpr e d i x) (wfDirFreeExpr x)
      (fun n => specCallExpr n x) := by
  cases x with
  | ident m => exact collectStep_id i _ _
  | lit l => exact collectStep_id i _ _
  | call callee args =>
      refine collectStep_mono ?_ ?_
        (collectStep_comp (collectCalleeFlags_step i callee)
          (collectCallArgs_step e d (collectCalleeFlags i callee) args))
      · intro h
        simp only [wfDirFreeExpr, Bool.and_eq_true] at h
        simp [h.2]
      · intro n hn
        simp only [Bool.or_eq_true] at hn
        simp only [specCallExpr, Bool.or_eq_true]
        tauto
  | newE callee args =>
      cases args with
      | none =>
          refine collectStep_mono ?_ ?_ (collectExpr_step e d i callee)
          · intro h
            simp only [wfDirFreeExpr, Bool.and_eq_true] at h
            simp [h.1]
          · intro n hn
            simp [specCallExpr, hn]
      | some l =>
          refine collectStep_mono ?_ ?_
            (collectStep_comp (collectExpr_step e d i callee)
              (collectCallArgs_step e d (collectExpr e d i callee) l))
          · intro h
            simp only [wfDirFreeExpr, Bool.and_eq_true] at h
            simp [h.1, h.2]
          · intro n hn
            simp only [Bool.or_eq_true] at hn
            simp only [specCallExpr, Bool.or_eq_true]
            tauto
  | awaitE a => exact collectExpr_step e d i a
  | assign l r =>
      refine collectStep_mono ?_ ?_
        (collectStep_comp (collectExpr_step e d i l)
          (collectExpr_step e d (collectExpr e d i l) r))
      · intro h
        simp only [wfDirFreeExpr, Bool.and_eq_true] at h
        simp [h.1, h.2]
      · intro n hn
        simp only [Bool.or_eq_true] at hn
        simp only [specCallExpr, Bool.or_eq_true]
        tauto
  | arrow params body isA => exact collectBlockOrExpr_step e d i body
  | fnE name fn =>
      cases fn with
      | mk params fbody isA =>
          cases fbody with
          | some b =>
              refine collectStep_mono ?_ ?_ (collectStmts_step e d i b)
              · intro h
                simp only [wfDirFreeExpr, wfDirFreeFunction,
                  Bool.and_eq_true] at h
                simp [h.2]
              · intro n hn
                simpa [specCallExpr, specCallFunction] using hn
          | none => exact collectStep_id i _ _
  | member obj prop => exact collectExpr_step e d i obj
  | object props => exact collectProps_step e d i props
  | array elems => exact collectCallArgs_step e d i elems
  | unknownE t => exact collectStep_id i _ _

theorem collectCallArgs_step (e d : Bool) (i : CollectedInfo)
    (l : List ExprOrSpread) :
    CollectStep i (collectCallArgs e d i l) (wfDirFreeArgs l)
      (fun n => specCallArgs n l) := by
  cases l with
  | nil => exact collectStep_id i _ _
  | cons a rest =>
      cases a with
      | mk s x =>
          refine collectStep_mono ?_ ?_
            (collectStep_comp (collectExpr_step e d i x)
              (collectCallArgs_step e d (collectExpr e d i x) rest))
          · intro h
            simp only [wfDirFreeArgs, Bool.and_eq_true] at h
            simp [h.1, h.2]
          · intro n hn
            simp only [Bool.or_eq_true] at hn
            simp only [specCallArgs, Bool.or_eq_true]
            tauto

theorem collectProps_step (e d : Bool) (i : CollectedInfo) (l : List PropKV) :
    CollectStep i (collectProps e d i l) (wfDirFreeProps l)
      (fun n => specCallProps n l) := by
  cases l with
  | nil => exact collectStep_id i _ _
  | cons p rest =>
      cases p with
      | keyValue k v =>
          refine collectStep_mono ?_ ?_
            (collectStep_comp (collectExpr_step e d i v)
              (collectProps_step e d (collectExpr e d i v) rest))
          · intro h
            simp only [wfDirFreeProps, Bool.and_eq_true] at h
            simp [h.1, h.2]
          · intro n hn
            simp only [Bool.or_eq_true] at hn
            simp only [specCallProps, Bool.or_eq_true]
            tauto
      | unknownP t =>
          refine collectStep_mono ?_ ?_ (collectProps_step e d i rest)
          · intro h
            simpa [wfDirFreeProps] using h
          · intro n hn
            simp [specCallProps, hn]

theorem collectBlockOrExpr_step (e d : Bool) (i : CollectedInfo)
    (b : BlockStmtOrExpr) :
    CollectStep i (collectBlockOrExpr e d i b) (wfDirFreeBOE b)
      (fun n => specCallBOE n b) := by
  cases b with
  | blockStmt stmts =>
      refine collectStep_mono ?_ ?_ (collectStmts_step e d i stmts)
      · intro h
        simp only [wfDirFreeBOE, Bool.and_eq_true] at h
        simp [h.2]
      · intro n hn
        simpa [specCallBOE] using hn
  | expr x => exact collectExpr_step e d i x

theorem collectStmts_step (e d : Bool) (i : CollectedInfo) (l : List Stmt) :
    CollectStep i (collectStmts e d i l) (wfDirFreeStmts l)
      (fun n => specCallStmts n l) := by
  cases l with
  | nil => exact collectStep_id i _ _
  | cons s rest =>
      refine collectStep_mono ?_ ?_
        (collectStep_comp (collectStmt_step e d i s)
          (collectStmts_step e d (collectStmt e d i s) rest))
      · intro h
        simp only [wfDirFreeStmts, Bool.and_eq_true] at h
        simp [h.1, h.2]
      · intro n hn
        simp only [Bool.or_eq_true] at hn
        simp only [specCallStmts, Bool.or_eq_true]
        tauto

theorem collectStmt_step (e d : Bool) (i : CollectedInfo) (s : Stmt) :
    CollectStep i (collectStmt e d i s) (wfDirFreeStmt s)
      (fun n => specCallStmt n s) := by
  cases s with
  | expr x => exact collectExpr_step e d i x
  | decl dc => exact collectDecl_step e d i dc
  | ret arg =>
      cases arg with
      | some x => exact collectExpr_step e d i x
      | none => exact collectStep_id i _ _
  | unknownS t => exact collectStep_id i _ _

theorem collectDecl_step (e d : Bool) (i : CollectedInfo) (dc : Decl) :
    CollectStep i (collectDecl e d i dc) (wfDirFreeDecl dc)
      (fun n => specCallDecl n dc) := by
  cases dc with
  | fn name fn => exact collectFnDecl_step e d i name fn
  | var v =>
      cases v with
      | mk kind decls => exact collectVarDeclarators_step e d i decls
  | unknownD t => exact collectStep_id i _ _

theorem collectVarDeclarators_step (e d : Bool) (i : CollectedInfo)
    (l : List VarDeclarator) :
    CollectStep i (collectVarDeclarators e d i l) (wfDirFreeVarDecls l)
      (fun n => specCallVarDecls n l) := by
  cases l with
  | nil => exact collectStep_id i _ _
  | cons dcl rest =>
      refine collectStep_mono ?_ ?_
        (collectStep_comp (collectVarDeclarator_step e d i dcl)
          (collectVarDeclarators_step e d (collectVarDeclarator e d i dcl) rest))
      · intro h
        simp only [wfDirFreeVarDecls, Bool.and_eq_true] at h
        simp [h.1, h.2]
      · intro n hn
        simp only [Bool.or_eq_true] at hn
        simp only [specCallVarDecls, Bool.or_eq_true]
        tauto

end

theorem collectItems_step (i : CollectedInfo) (items : Module) :
    CollectStep i (collectItems i items) (items.all wfDirFreeItem)
      (fun n => items.any (specCallItem n)) := by
  induction items generalizing i with
  | nil => exact collectStep_id i _ _
  | cons it rest ih =>
      have hcomp : ∀ (j : CollectedInfo),
          CollectStep i j (wfDirFreeItem it) (fun n => specCallItem n it) →
          collectItems i (it :: rest) = collectItems j rest →
          CollectStep i (collectItems i (it :: rest))
            ((it :: rest).all wfDirFreeItem)
            (fun n => (it :: rest).any (specCallItem n)) := by
        intro j hj heq
        rw [heq]
        refine collectStep_mono ?_ ?_ (collectStep_comp hj (ih j))
        · intro h
          simp only [List.all_cons, Bool.and_eq_true] at h
          simp [h.1, h.2]
        · intro n hn
          simp only [Bool.or_eq_true] at hn
          simp only [List.any_cons, Bool.or_eq_true]
          tauto
      cases it with
      | stmt s => exact hcomp _ (collectStmt_step false false i s) rfl
      | moduleDecl md =>
          cases md with
          | exportDecl dc => exact hcomp _ (collectDecl_step true false i dc) rfl
          | exportDefaultDecl dd =>
              cases dd with
              | fn nm fb =>
                  cases fb with
                  | mk params fbody isA =>
                      cases fbody with
                      | some b =>
                          refine hcomp _ ?_ rfl
                          refine collectStep_mono ?_ ?_
                            (collectStmts_step true true i b)
                          · intro h
                            simp only [wfDirFreeItem, wfDirFreeFunction,
                              Bool.and_eq_true] at h
                            simp [h.2]
                          · intro n hn
                            simpa [specCallItem, specCallFunction] using hn
                      | none => exact hcomp _ (collectStep_id i _ _) rfl
              | unknownDD t => exact hcomp _ (collectStep_id i _ _) rfl
          | importD imp => exact hcomp _ (collectStep_id i _ _) rfl
          | unknownMD t => exact hcomp _ (collectStep_id i _ _) rfl

theorem collectImports_frame (i : CollectedInfo) (items : Module) :
    (collectImports i items).hasModuleWorkflowDirective =
        i.hasModuleWorkflowDirective ∧
    (collectImports i items).workflowFns = i.workflowFns ∧
    (collectImports i items).stepFns = i.stepFns ∧
    (collectImports i items).stepFnNames = i.stepFnNames ∧
    (collectImports i items).hasInvoke = i.hasInvoke ∧
    (collectImports i items).hasSleep = i.hasSleep ∧
    (collectImports i items).hasWaitForCallback = i.hasWaitForCallback := by
  induction items generalizing i with
  | nil => exact ⟨rfl, rfl, rfl, rfl, rfl, rfl, rfl⟩
  | cons it rest ih =>
      cases it with
      | stmt s => simpa [collectImports] using ih i
      | moduleDecl md =>
          cases md with
          | importD imp =>
              by_cases hrel : isRelativeSrc imp.src = true
              · simpa [collectImports, hrel] using
                  ih { i with workflowImports := i.workflowImports ++
                    imp.specifiers.map (importInfoOfSpecifier imp.src) }
              · simpa [collectImports, hrel] using ih i
          | exportDecl dc => simpa [collectImports] using ih i
          | exportDefaultDecl dd => simpa [collectImports] using ih i
          | unknownMD t => simpa [collectImports] using ih i

theorem flagOfInfo_false {x : CollectedInfo} (n : String)
    (h1 : x.hasInvoke = false) (h2 : x.hasSleep = false)
    (h3 : x.hasWaitForCallback = false) : flagOfInfo n x = false := by
  unfold flagOfInfo
  split
  · exact h1
  · split
    · exact h2
    · exact h3

/-- Characterization of the complete first pass: the module-directive flag is
exactly the top-level scan; `workflowFns` is empty for modules whose function
bodies carry no workflow directive; step names and step-map keys agree; and
each reserved flag is justified by a spec-side occurrence. -/
theorem collect_char (m : Module) :
    (collect m).hasModuleWorkflowDirective =
        moduleHasTopLevelWorkflowDirective m ∧
    (moduleFnBodiesWorkflowDirectiveFree m = true →
        (collect m).workflowFns = []) ∧
    stepNamesAgree (collect m) ∧
    (∀ n, reservedName n → flagOfInfo n (collect m) = true →
        specModuleContainsReservedCall n m = true) := by
  have hcol : collect m =
      collectItems (collectImports
        { emptyInfo with hasModuleWorkflowDirective :=
            moduleHasTopLevelWorkflowDirective m } m) m := rfl
  obtain ⟨f1, f2, f3, f4, f5, f6, f7⟩ := collectImports_frame
    { emptyInfo with hasModuleWorkflowDirective :=
        moduleHasTopLevelWorkflowDirective m } m
  obtain ⟨s1, s2, s3, s4, s5⟩ := collectItems_step
    (collectImports
      { emptyInfo with hasModuleWorkflowDirective :=
          moduleHasTopLevelWorkflowDirective m } m) m
  refine ⟨?_, ?_, ?_, ?_⟩
  · rw [hcol, s1, f1]
  · intro hff
    rw [hcol, s3 hff, f2]
    rfl
  · have hagree : stepNamesAgree (collectImports
        { emptyInfo with hasModuleWorkflowDirective :=
            moduleHasTopLevelWorkflowDirective m } m) := by
      intro s
      rw [f3, f4]
      simp [stepKeys, emptyInfo]
    rw [hcol]
    exact s4 hagree
  · intro n hr hf
    rw [hcol] at hf
    rcases s5 n hr hf with hfalse | hspec
    · rw [flagOfInfo_false n (by rw [f5]; rfl) (by rw [f6]; rfl)
        (by rw [f7]; rfl)] at hfalse
      exact absurd hfalse (by simp)
    · exact hspec

/-!  ## Transformer helper lemmas  -/

/-- The short-circuit guard of `transform_workflow_module`. -/
def workflowShortCircuit (info : CollectedInfo) : Bool :=
  info.workflowFns.isEmpty && !info.hasModuleWorkflowDirective

/-- The `__workflowMeta` item appended after the drain loop: one export when a
workflow function was collected, nothing otherwise. -/
def workflowMetaTail (info : CollectedInfo) : Module :=
  match info.workflowFns with
  | wf :: _ => [createWorkflowMetaExport wf.name (stepKeys info.stepFns)]
  | [] => []

theorem transformWorkflowModule_eq (info : CollectedInfo)
    (config : PluginConfig) (items : Module)
    (h : workflowShortCircuit info = false) :
    transformWorkflowModule info config items =
      createSdkImport config.packageName ::
        ((if info.hasInvoke then [createLambdaSdkImport] else []) ++
         (items.flatMap (processWorkflowItem info) ++ workflowMetaTail info)) := by
  unfold transformWorkflowModule
  unfold workflowShortCircuit at h
  simp only [h, Bool.false_eq_true, if_false, ite_false]
  simp [workflowMetaTail, List.append_assoc]

theorem stepGet_some_containsKey {m : List (String × StepFnInfo)} {k : String}
    {v : StepFnInfo} (h : stepGet m k = some v) :
    stepContainsKey m k = true := by
  unfold stepGet at h
  unfold stepContainsKey
  rw [Option.map_eq_some'] at h
  obtain ⟨p, hfind, hp⟩ := h
  rw [List.any_eq_true]
  refine ⟨p, List.mem_of_find?_eq_some hfind, ?_⟩
  exact @List.find?_some _ (fun q => q.1 == k) p m hfind

/-- The step-call branch of `transform_expr`: a call whose callee is a
registered step name is replaced, whatever its arguments, by the
`ctx.step` call carrying the captured body minus its step directives. -/
theorem transformExpr_step_call (info : CollectedInfo) (name : String)
    (si : StepFnInfo) (args : List ExprOrSpread)
    (h : stepGet info.stepFns name = some si) :
    transformExpr info (.call (.expr (.ident name)) args) =
      createCtxStepCall name (si.body.filter (fun s => !isUseStepDirective s)) := by
  have hck : stepContainsKey info.stepFns name = true := stepGet_some_containsKey h
  simp [transformExpr, stepInlineResult, isStepFnCall, hck, h]

/-!  ## Client-mode helper lemmas  -/

/-- Is a module item an import declaration whose source is among the collected
relative sources (and hence removed in client mode)? -/
def isRemovedImport (info : CollectedInfo) : ModuleItem → Bool
  | .moduleDecl (.importD imp) => (workflowSources info).contains imp.src
  | _ => false

/-- The descriptor declarations generated for one module item in client mode:
one per specifier of a removed import, nothing for any other item. -/
def itemDescriptors (info : CollectedInfo) (config : PluginConfig) :
    ModuleItem → List ModuleItem
  | .moduleDecl (.importD imp) =>
      if (workflowSources info).contains imp.src then
        imp.specifiers.map (fun sp =>
          createWorkflowDescriptor (specifierLocalName sp) config.envPfx)
      else []
  | _ => []

theorem clientDrain_fst (info : CollectedInfo) (config : PluginConfig)
    (items : List ModuleItem) :
    (clientDrain info config items).1 =
      items.filter (fun it => !isRemovedImport info it) := by
  induction items with
  | nil => rfl
  | cons it rest ih =>
      cases it with
      | stmt s => simp [clientDrain, List.filter, isRemovedImport, ih]
      | moduleDecl md =>
          cases md with
          | importD imp =>
              by_cases hc : imp.src ∈ workflowSources info
              · simp [clientDrain, List.filter, isRemovedImport, hc, ih]
              · simp [clientDrain, List.filter, isRemovedImport, hc, ih]
          | exportDecl dc => simp [clientDrain, List.filter, isRemovedImport, ih]
          | exportDefaultDecl dd =>
              simp [clientDrain, List.filter, isRemovedImport, ih]
          | unknownMD t => simp [clientDrain, List.filter, isRemovedImport, ih]

theorem clientDrain_snd (info : CollectedInfo) (config : PluginConfig)
    (items : List ModuleItem) :
    (clientDrain info config items).2 =
      items.flatMap (itemDescriptors info config) := by
  induction items with
  | nil => rfl
  | cons it rest ih =>
      cases it with
      | stmt s => simp [clientDrain, itemDescriptors, ih]
      | moduleDecl md =>
          cases md with
          | importD imp =>
              by_cases hc : imp.src ∈ workflowSources info
              · simp [clientDrain, itemDescriptors, hc, ih]
              · simp [clientDrain, itemDescriptors, hc, ih]
          | exportDecl dc => simp [clientDrain, itemDescriptors, ih]
          | exportDefaultDecl dd => simp [clientDrain, itemDescriptors, ih]
          | unknownMD t => simp [clientDrain, itemDescriptors, ih]

theorem itemDescriptors_not_import (info : CollectedInfo)
    (config : PluginConfig) (it x : ModuleItem)
    (hx : x ∈ itemDescriptors info config it) : isImportItem x = false := by
  cases it with
  | stmt s => simp [itemDescriptors] at hx
  | moduleDecl md =>
      cases md with
      | importD imp =>
          by_cases hc : imp.src ∈ workflowSources info
          · simp [itemDescriptors, hc] at hx
            obtain ⟨sp, _, rfl⟩ := hx
            rfl
          · simp [itemDescriptors, hc] at hx
      | exportDecl dc => simp [itemDescriptors] at hx
      | exportDefaultDecl dd => simp [itemDescriptors] at hx
      | unknownMD t => simp [itemDescriptors] at hx

/-!  ## Concrete example modules  -/

/-- A bare string-literal directive statement. -/
def dirStmt (s : String) : Stmt := .expr (.lit (.str s))

/-- The default (workflow-mode) configuration. -/
def workflowModeConfig : PluginConfig := defaultConfig

/-- The default client-mode configuration. -/
def clientModeConfig : PluginConfig := { defaultConfig with mode := .client }

/-- An export-wrapped step function `s` plus a workflow `wf` calling it. -/
def exportedStepModule : Module :=
  [.moduleDecl (.exportDecl (.fn "s"
    (.mk [] (some [dirStmt "use step",
                   .expr (.call (.expr (.ident "doWork")) [])]) false))),
   .stmt (.decl (.fn "wf"
    (.mk [] (some [dirStmt "use workflow",
                   .expr (.call (.expr (.ident "s"))
                     [.mk false (.lit (.num 1))])]) false)))]

/-- A module whose only item is `export default async function wf() { "use workflow"; ... }`. -/
def defaultExportWorkflowModule : Module :=
  [.moduleDecl (.exportDefaultDecl (.fn (some "wf")
    (.mk [] (some [dirStmt "use workflow", .ret (some (.lit (.num 1)))]) true)))]

/-- The body statements of the step function of `stepSleepModule`. -/
def stepSleepBody : List Stmt :=
  [dirStmt "use step",
   .expr (.awaitE (.call (.expr (.ident "sleep")) [.mk false (.ident "d")]))]

/-- A step `s` whose body contains `await sleep(d)`, plus a workflow calling
`s`. -/
def stepSleepModule : Module :=
  [.stmt (.decl (.fn "s" (.mk [] (some stepSleepBody) true))),
   .stmt (.decl (.fn "wf"
    (.mk [] (some [dirStmt "use workflow",
                   .expr (.awaitE (.call (.expr (.ident "s")) []))]) true)))]

/-- A top-level arrow-function expression statement whose body declares
`const w = async () => { "use workflow"; }`: the collector registers `w`
through the nested declarator, but the transformer keeps the item verbatim. -/
def nestedArrowWorkflowModule : Module :=
  [.stmt (.expr (.arrow []
    (.blockStmt [.decl (.var (.mk .constK
      [.mk (.ident "w")
        (some (.arrow [] (.blockStmt [dirStmt "use workflow"]) true))]))])
    false))]

/-- The basic exported workflow function of the Rust unit tests. -/
def basicWorkflowModule : Module :=
  [.moduleDecl (.exportDecl (.fn "myWorkflow"
    (.mk [.ident "input"]
      (some [dirStmt "use workflow",
             .decl (.var (.mk .constK [.mk (.ident "result")
               (some (.awaitE (.call (.expr (.ident "doSomething"))
                 [.mk false (.ident "input")])))])),
             .ret (some (.ident "result"))]) true)))]

/-- A module consisting only of a bare top-level `"use workflow"` directive. -/
def moduleDirectiveOnlyModule : Module := [.stmt (dirStmt "use workflow")]

/-- The sleep-only workflow of the Rust unit tests: `await sleep({seconds: 60})`
and no `invoke` call. -/
def sleepWorkflowModule : Module :=
  [.moduleDecl (.exportDecl (.fn "delayedWorkflow"
    (.mk [.ident "input"]
      (some [dirStmt "use workflow",
             .expr (.awaitE (.call (.expr (.ident "sleep"))
               [.mk false (.object [.keyValue "seconds" (.lit (.num 60))])])),
             .ret (some (.lit (.str "done")))]) true)))]

/-- The client-mode example of the Rust unit tests: one relative import, one
package import, one function. -/
def clientExampleModule : Module :=
  [.moduleDecl (.importD
    { specifiers := [.named "myWorkflow" none], src := "./workflows/my-workflow" }),
   .moduleDecl (.importD
    { specifiers := [.named "someUtil" none], src := "some-package" }),
   .stmt (.decl (.fn "main"
    (.mk [] (some [.expr (.awaitE (.call (.expr (.ident "myWorkflow")) []))])
      true)))]

/-- A module whose only item is `const x = invoke("a", 1);`: the reserved call
sits in a top-level variable initializer that is not a function literal. -/
def varInvokeModule : Module :=
  [.stmt (.decl (.var (.mk .constK
    [.mk (.ident "x") (some (.call (.expr (.ident "invoke"))
      [.mk false (.lit (.str "a")), .mk false (.lit (.num 1))]))])))]

/-- The invoke workflow of the Rust unit tests. -/
def invokeWorkflowModule : Module :=
  [.moduleDecl (.exportDecl (.fn "orchestrator"
    (.mk [.ident "input"]
      (some [dirStmt "use workflow",
             .decl (.var (.mk .constK [.mk (.ident "result")
               (some (.awaitE (.call (.expr (.ident "invoke"))
                 [.mk false (.lit (.str "otherFn")),
                  .mk false (.ident "input")])))])),
             .ret (some (.ident "result"))]) true)))]

/-- A module with no directive anywhere (the pass-through example of the Rust
unit tests). -/
def noDirectiveModule : Module :=
  [.moduleDecl (.exportDecl (.fn "normalFunction"
    (.mk [.ident "input"] (some [.ret (some (.ident "input"))]) false)))]

/-- One `const` declaration carrying two workflow declarators. -/
def twoWorkflowVarModule : Module :=
  [.stmt (.decl (.var (.mk .constK
    [.mk (.ident "w1")
       (some (.arrow [] (.blockStmt [dirStmt "use workflow",
         .ret (some (.lit (.num 1)))]) true)),
     .mk (.ident "w2")
       (some (.arrow [] (.blockStmt [dirStmt "use workflow",
         .ret (some (.lit (.num 2)))]) true))])))]

/-!  ## Claims C1 - C4  -/

/-- C1 counterexample: in `exportedStepModule` the function `s` is a
registered step called from a workflow, yet its standalone (export-wrapped)
declaration does not disappear from the workflow-mode output, contradicting
the claim that the step function's standalone declaration disappears. -/
theorem C1_counterexample :
    isStepFnName (collect exportedStepModule) "s" = true ∧
    declaresFn (transformProgram workflowModeConfig exportedStepModule) "s" =
      true :=
  ⟨by decide, by decide⟩

/-- C1 (amended): a call whose callee is a registered step name is replaced by
`ctx.step(name, async () => { captured body minus its step directives })`,
discarding every call-site argument; and a non-export-wrapped function or
variable declaration bearing a step name is dropped from the output. -/
theorem C1_step_call_inlining :
    (∀ (info : CollectedInfo) (name : String) (si : StepFnInfo)
       (args : List ExprOrSpread),
       stepGet info.stepFns name = some si →
       transformExpr info (.call (.expr (.ident name)) args) =
         createCtxStepCall name
           (si.body.filter (fun s => !isUseStepDirective s))) ∧
    (∀ (info : CollectedInfo) (name : String) (f : FunctionB),
       isStepFnName info name = true →
       processWorkflowItem info (.stmt (.decl (.fn name f))) = []) ∧
    (∀ (info : CollectedInfo) (kind : VarDeclKind)
       (decls : List VarDeclarator),
       decls.any (fun d =>
         match d with
         | .mk (.ident n) _ => isStepFnName info n
         | _ => false) = true →
       processWorkflowItem info (.stmt (.decl (.var (.mk kind decls)))) = []) ∧
    (∀ (info : CollectedInfo) (name : String) (f : FunctionB),
       findWorkflowFn info name = none →
       processWorkflowItem info (.moduleDecl (.exportDecl (.fn name f))) =
         [.moduleDecl (.exportDecl (.fn name f))]) := by
  refine ⟨transformExpr_step_call, ?_, ?_, ?_⟩
  · intro info name f h
    simp [processWorkflowItem, isUseWorkflowDirective, isDirective, h]
  · intro info kind decls h
    simp [processWorkflowItem, isUseWorkflowDirective, isDirective, h]
  · intro info name f h
    simp [processWorkflowItem, h]

/-- C1 witness: the step call in `exportedStepModule` is rewritten to the
`ctx.step` call carrying the captured body, for an arbitrary argument that is
discarded. -/
theorem C1_witness :
    transformExpr (collect exportedStepModule)
        (.call (.expr (.ident "s")) [.mk false (.lit (.num 7))]) =
      createCtxStepCall "s" [.expr (.call (.expr (.ident "doWork")) [])] :=
  C1_step_call_inlining.1 (collect exportedStepModule) "s"
    ⟨"s", [dirStmt "use step", .expr (.call (.expr (.ident "doWork")) [])]⟩
    [.mk false (.lit (.num 7))] (by rfl)

/-- C2 counterexample: a module holding only an `export default` workflow
function is not collected (no workflow function registered), so the transform
short-circuits and the output contains no durable-execution wrapper at all,
contradicting the claim that every `export default` workflow function yields a
default-exported wrapper. -/
theorem C2_counterexample :
    (collect defaultExportWorkflowModule).workflowFns.isEmpty = true ∧
    transformProgram workflowModeConfig defaultExportWorkflowModule =
      defaultExportWorkflowModule ∧
    countDurableWrappers
      (transformProgram workflowModeConfig defaultExportWorkflowModule) = 0 :=
  ⟨by decide, by rfl, by decide⟩

/-- C2 (amended): `export default` declarations pass through the item pass
verbatim (they are never rewritten into wrappers), while a non-exported
workflow function declaration becomes a non-exported `const` wrapper
declaration. -/
theorem C2_export_wrappers :
    (∀ (info : CollectedInfo) (dd : DefaultDecl),
       processWorkflowItem info (.moduleDecl (.exportDefaultDecl dd)) =
         [.moduleDecl (.exportDefaultDecl dd)]) ∧
    (∀ (info : CollectedInfo) (name : String) (params : List Pat)
       (body : List Stmt) (isAsync : Bool) (wf : WorkflowFnInfo),
       isStepFnName info name = false →
       findWorkflowFn info name = some wf →
       processWorkflowItem info
           (.stmt (.decl (.fn name (.mk params (some body) isAsync)))) =
         [createWithDurableExecutionCall wf.name
            (transformWorkflowBody info body) false false]) ∧
    (∀ (name : String) (body : List Stmt),
       createWithDurableExecutionCall name body false false =
         .stmt (.decl (.var (.mk .constK [.mk (.ident name)
           (some (.call (.expr (.ident "withDurableExecution"))
             [.mk false (.arrow [.ident "event", .ident "ctx"]
               (.blockStmt body) true)]))])))) := by
  refine ⟨?_, ?_, fun _ _ => rfl⟩
  · intro info dd
    rfl
  · intro info name params body isAsync wf h1 h2
    simp [processWorkflowItem, isUseWorkflowDirective, isDirective, h1, h2]

/-- C2 witness: the non-exported workflow function of `stepSleepModule`
becomes a non-exported `const` wrapper. -/
theorem C2_witness :
    processWorkflowItem (collect stepSleepModule)
        (.stmt (.decl (.fn "wf"
          (.mk [] (some [dirStmt "use workflow",
            .expr (.awaitE (.call (.expr (.ident "s")) []))]) true)))) =
      [createWithDurableExecutionCall "wf"
        (transformWorkflowBody (collect stepSleepModule)
          [dirStmt "use workflow",
           .expr (.awaitE (.call (.expr (.ident "s")) []))]) false false] :=
  C2_export_wrappers.2.1 (collect stepSleepModule) "wf" []
    [dirStmt "use workflow", .expr (.awaitE (.call (.expr (.ident "s")) []))]
    true ⟨"wf", false, false, true⟩ (by decide) (by rfl)

/-- C3 counterexample: the step body of `stepSleepModule` is inlined verbatim,
still containing the bare `sleep` call, whereas the body rewrite rules of
section 4.5 applied to the same statements rewrite `sleep` away, contradicting
the claim that the inlined step body goes through the same rewrite rules. -/
theorem C3_counterexample :
    transformExpr (collect stepSleepModule) (.call (.expr (.ident "s")) []) =
      createCtxStepCall "s"
        [.expr (.awaitE (.call (.expr (.ident "sleep"))
          [.mk false (.ident "d")]))] ∧
    specCallStmts "sleep"
      [.expr (.awaitE (.call (.expr (.ident "sleep"))
        [.mk false (.ident "d")]))] = true ∧
    specCallStmts "sleep"
      (transformWorkflowBody (collect stepSleepModule) stepSleepBody) = false :=
  ⟨by rfl, by decide, by decide⟩

/-- C3 (amended): the statements inlined at a step call site are exactly the
captured step body with its `"use step"` directive statements filtered out —
no per-statement or per-expression rewriting is applied to them (and the
result indeed carries no step directive). -/
theorem C3_inlined_body_verbatim :
    ∀ (info : CollectedInfo) (name : String) (si : StepFnInfo)
      (args : List ExprOrSpread),
      stepGet info.stepFns name = some si →
      transformExpr info (.call (.expr (.ident name)) args) =
        createCtxStepCall name
          (si.body.filter (fun s => !isUseStepDirective s)) ∧
      (si.body.filter (fun s => !isUseStepDirective s)).all
        (fun s => !isUseStepDirective s) = true := by
  intro info name si args h
  refine ⟨transformExpr_step_call info name si args h, ?_⟩
  rw [List.all_eq_true]
  intro s hs
  exact (List.mem_filter.mp hs).2

/-- C3 witness: instantiation at the step of `stepSleepModule`. -/
theorem C3_witness :
    transformExpr (collect stepSleepModule) (.call (.expr (.ident "s")) []) =
      createCtxStepCall "s"
        (stepSleepBody.filter (fun s => !isUseStepDirective s)) :=
  (C3_inlined_body_verbatim (collect stepSleepModule) "s"
    ⟨"s", stepSleepBody⟩ [] (by rfl)).1

/-- Short-circuit behavior of the workflow transform: when nothing was
collected the module is returned unchanged. -/
theorem transformWorkflowModule_shortCircuit (info : CollectedInfo)
    (config : PluginConfig) (items : Module)
    (h : workflowShortCircuit info = true) :
    transformWorkflowModule info config items = items := by
  have h2 : (info.workflowFns.isEmpty && !info.hasModuleWorkflowDirective) =
      true := h
  simp [transformWorkflowModule, h2]

/-- C4 counterexample: re-applying the workflow transform to the output for
`nestedArrowWorkflowModule` is not a no-op — the nested-declarator workflow is
re-collected, so a second SDK import and a second meta export are added. -/
theorem C4_counterexample :
    transformProgram workflowModeConfig
        (transformProgram workflowModeConfig nestedArrowWorkflowModule) ≠
      transformProgram workflowModeConfig nestedArrowWorkflowModule := by
  intro h
  have h5 : (transformProgram workflowModeConfig
      (transformProgram workflowModeConfig nestedArrowWorkflowModule)).length =
      5 := by decide
  have h3 : (transformProgram workflowModeConfig
      nestedArrowWorkflowModule).length = 3 := by decide
  rw [h, h3] at h5
  exact absurd h5 (by decide)

/-- C4 (amended): the workflow-mode transform is idempotent on every module
whose first transformation output collects no workflow function and no
module-level directive — then the short-circuit fires on the second
application. -/
theorem C4_idempotent_when_output_collects_nothing :
    ∀ (config : PluginConfig) (m : Module), config.mode = .workflow →
      (collect (transformProgram config m)).workflowFns.isEmpty = true →
      (collect (transformProgram config m)).hasModuleWorkflowDirective = false →
      transformProgram config (transformProgram config m) =
        transformProgram config m := by
  intro config m hmode h1 h2
  have hsc : workflowShortCircuit (collect (transformProgram config m)) =
      true := by
    unfold workflowShortCircuit
    rw [h1, h2]
    rfl
  obtain ⟨mode, pkg, env⟩ := config
  cases mode
  · exact transformWorkflowModule_shortCircuit _ _ _ hsc
  · exact absurd hmode (fun hh => TransformMode.noConfusion hh)

/-- C4 witness: the transform is idempotent on the basic workflow module. -/
theorem C4_witness :
    transformProgram defaultConfig
        (transformProgram defaultConfig basicWorkflowModule) =
      transformProgram defaultConfig basicWorkflowModule :=
  C4_idempotent_when_output_collects_nothing defaultConfig basicWorkflowModule
    rfl (by decide) (by decide)

/-!  ## Claims C5 - C10  -/

/-- In workflow mode the whole pass is the workflow-module transformation of
the collected facts. -/
theorem transformProgram_workflow (config : PluginConfig) (m : Module)
    (h : config.mode = .workflow) :
    transformProgram config m =
      transformWorkflowModule (collect m) config m := by
  obtain ⟨mode, pkg, env⟩ := config
  cases mode
  · rfl
  · exact absurd h (fun hh => TransformMode.noConfusion hh)

/-- In client mode the whole pass is the client-module transformation of the
collected facts. -/
theorem transformProgram_client (config : PluginConfig) (m : Module)
    (h : config.mode = .client) :
    transformProgram config m = transformClientModule (collect m) config m := by
  obtain ⟨mode, pkg, env⟩ := config
  cases mode
  · exact absurd h (fun hh => TransformMode.noConfusion hh)
  · rfl

/-- C5 counterexample: a module holding only a bare top-level `"use workflow"`
directive is not short-circuited, yet no `__workflowMeta` export is appended
(the output is just the SDK import), contradicting the claim that every
non-short-circuited module gets exactly one meta export. -/
theorem C5_counterexample :
    workflowShortCircuit (collect moduleDirectiveOnlyModule) = false ∧
    hasExportNamed
      (transformProgram workflowModeConfig moduleDirectiveOnlyModule)
      "__workflowMeta" = false ∧
    transformProgram workflowModeConfig moduleDirectiveOnlyModule =
      [createSdkImport "@bento/aws-durable"] :=
  ⟨by decide, by decide, by rfl⟩

/-- C5 (amended): for a non-short-circuited module the `__workflowMeta` export
is appended exactly when at least one workflow function was collected; its
`name` is the first collected workflow's name and its `steps` list is the key
set of the collected step map, which agrees (as a set) with all step names
collected in the module. -/
theorem C5_meta_export :
    ∀ (config : PluginConfig) (m : Module), config.mode = .workflow →
      workflowShortCircuit (collect m) = false →
      (∀ wf rest, (collect m).workflowFns = wf :: rest →
          transformProgram config m =
            createSdkImport config.packageName ::
              ((if (collect m).hasInvoke then [createLambdaSdkImport] else []) ++
               (m.flatMap (processWorkflowItem (collect m)) ++
                [createWorkflowMetaExport wf.name
                  (stepKeys (collect m).stepFns)]))) ∧
      ((collect m).workflowFns = [] →
          transformProgram config m =
            createSdkImport config.packageName ::
              ((if (collect m).hasInvoke then [createLambdaSdkImport] else []) ++
               m.flatMap (processWorkflowItem (collect m)))) ∧
      (∀ s, s ∈ stepKeys (collect m).stepFns ↔ s ∈ (collect m).stepFnNames) := by
  intro config m hmode hsc
  have hprog := transformProgram_workflow config m hmode
  have heq := transformWorkflowModule_eq (collect m) config m hsc
  refine ⟨?_, ?_, (collect_char m).2.2.1⟩
  · intro wf rest hwf
    rw [hprog, heq]
    unfold workflowMetaTail
    rw [hwf]
  · intro hwf
    rw [hprog, heq]
    unfold workflowMetaTail
    rw [hwf]
    simp

/-- C5 witness: instantiation at the basic workflow module. -/
theorem C5_witness :
    transformProgram defaultConfig basicWorkflowModule =
      createSdkImport defaultConfig.packageName ::
        ((if (collect basicWorkflowModule).hasInvoke then [createLambdaSdkImport]
          else []) ++
         (basicWorkflowModule.flatMap
            (processWorkflowItem (collect basicWorkflowModule)) ++
          [createWorkflowMetaExport "myWorkflow"
            (stepKeys (collect basicWorkflowModule).stepFns)])) :=
  (C5_meta_export defaultConfig basicWorkflowModule rfl (by decide)).1
    ⟨"myWorkflow", true, false, true⟩ [] (by rfl)

/-- C6: for every non-short-circuited module in workflow mode the rewritten
item list begins with the durable-execution SDK import, immediately followed
by the remote-invocation SDK import exactly when `hasInvoke` was collected;
and concretely, the sleep-only workflow collects `hasSleep` but not
`hasInvoke`, so its output carries the durable-execution import but no
remote-invocation import. -/
theorem C6_sdk_imports :
    (∀ (config : PluginConfig) (m : Module), config.mode = .workflow →
       workflowShortCircuit (collect m) = false →
       transformProgram config m =
         createSdkImport config.packageName ::
           ((if (collect m).hasInvoke then [createLambdaSdkImport] else []) ++
            (m.flatMap (processWorkflowItem (collect m)) ++
             workflowMetaTail (collect m)))) ∧
    ((collect sleepWorkflowModule).hasSleep = true ∧
     (collect sleepWorkflowModule).hasInvoke = false ∧
     hasImport (transformProgram defaultConfig sleepWorkflowModule)
       "@bento/aws-durable" = true ∧
     hasImport (transformProgram defaultConfig sleepWorkflowModule)
       "@aws-sdk/client-lambda" = false) := by
  refine ⟨?_, by decide, by decide, by decide, by decide⟩
  intro config m hmode hsc
  rw [transformProgram_workflow config m hmode]
  exact transformWorkflowModule_eq (collect m) config m hsc

/-- C6 witness: instantiation at the sleep-only workflow module. -/
theorem C6_witness :
    transformProgram defaultConfig sleepWorkflowModule =
      createSdkImport defaultConfig.packageName ::
        ((if (collect sleepWorkflowModule).hasInvoke then [createLambdaSdkImport]
          else []) ++
         (sleepWorkflowModule.flatMap
            (processWorkflowItem (collect sleepWorkflowModule)) ++
          workflowMetaTail (collect sleepWorkflowModule))) :=
  C6_sdk_imports.1 defaultConfig sleepWorkflowModule rfl (by decide)

/-- Structural characterization of the client-mode transform when relative
ones were collected: removed imports are filtered out, one descriptor per
specifier of each removed import is generated in original order, and the
descriptor block is inserted before the first surviving non-import item. -/
theorem transformClientModule_eq (info : CollectedInfo)
    (config : PluginConfig) (items : Module)
    (h : info.workflowImports ≠ []) :
    transformClientModule info config items =
      (items.filter (fun it => !isRemovedImport info it)).take
          ((items.filter (fun it => !isRemovedImport info it)).findIdx
            (fun it => !isImportItem it)) ++
        items.flatMap (itemDescriptors info config) ++
        (items.filter (fun it => !isRemovedImport info it)).drop
          ((items.filter (fun it => !isRemovedImport info it)).findIdx
            (fun it => !isImportItem it)) := by
  have hne : info.workflowImports.isEmpty = false := by
    rcases hl : info.workflowImports with _ | ⟨a, l⟩
    · exact absurd hl h
    · rfl
  have hfst := clientDrain_fst info config items
  have hsnd := clientDrain_snd info config items
  rcases hcd : clientDrain info config items with ⟨ni, ds⟩
  rw [hcd] at hfst hsnd
  simp only at hfst hsnd
  subst hfst
  subst hsnd
  simp only [transformClientModule, hne, Bool.false_eq_true, if_false,
    ite_false, hcd]

/-- C7: the client-mode rewrite — pass-through when no relative import was
collected, otherwise removal of collected-source imports, one descriptor per
specifier inserted as a contiguous block before the first surviving non-import
item with all other items kept in order, and no import from a collected source
surviving. -/
theorem C7_client_rewrite :
    (∀ (config : PluginConfig) (m : Module), config.mode = .client →
       transformProgram config m =
         transformClientModule (collect m) config m) ∧
    (∀ (info : CollectedInfo) (config : PluginConfig) (items : Module),
       (info.workflowImports = [] →
          transformClientModule info config items = items) ∧
       (info.workflowImports ≠ [] →
          transformClientModule info config items =
            (items.filter (fun it => !isRemovedImport info it)).take
                ((items.filter (fun it => !isRemovedImport info it)).findIdx
                  (fun it => !isImportItem it)) ++
              items.flatMap (itemDescriptors info config) ++
              (items.filter (fun it => !isRemovedImport info it)).drop
                ((items.filter (fun it => !isRemovedImport info it)).findIdx
                  (fun it => !isImportItem it))) ∧
       (∀ imp : ImportDecl,
          isRemovedImport info (.moduleDecl (.importD imp)) = true →
          (ModuleItem.moduleDecl (.importD imp)) ∉
            transformClientModule info config items)) := by
  refine ⟨transformProgram_client, fun info config items => ⟨?_, ?_, ?_⟩⟩
  · intro h
    simp [transformClientModule, h]
  · exact transformClientModule_eq info config items
  · intro imp himp hmem
    by_cases hws : info.workflowImports = []
    · have hfalse : isRemovedImport info (.moduleDecl (.importD imp)) =
          false := by
        simp [isRemovedImport, workflowSources, hws]
      rw [hfalse] at himp
      exact absurd himp (by simp)
    · rw [transformClientModule_eq info config items hws] at hmem
      rcases List.mem_append.mp hmem with h12 | h3
      · rcases List.mem_append.mp h12 with h1 | h2
        · have hmemf := List.mem_of_mem_take h1
          have := (List.mem_filter.mp hmemf).2
          rw [himp] at this
          exact absurd this (by simp)
        · rw [List.mem_flatMap] at h2
          obtain ⟨it, _, hdesc⟩ := h2
          have := itemDescriptors_not_import info config it _ hdesc
          exact absurd this (by simp [isImportItem])
      · have hmemf := List.mem_of_mem_drop h3
        have := (List.mem_filter.mp hmemf).2
        rw [himp] at this
        exact absurd this (by simp)

/-- C7 witness: instantiation at the client example module. -/
theorem C7_witness :
    transformClientModule (collect clientExampleModule) clientModeConfig
        clientExampleModule =
      (clientExampleModule.filter
          (fun it => !isRemovedImport (collect clientExampleModule) it)).take
          ((clientExampleModule.filter
              (fun it => !isRemovedImport (collect clientExampleModule) it)).findIdx
            (fun it => !isImportItem it)) ++
        clientExampleModule.flatMap
          (itemDescriptors (collect clientExampleModule) clientModeConfig) ++
        (clientExampleModule.filter
            (fun it => !isRemovedImport (collect clientExampleModule) it)).drop
          ((clientExampleModule.filter
              (fun it => !isRemovedImport (collect clientExampleModule) it)).findIdx
            (fun it => !isImportItem it)) :=
  (C7_client_rewrite.2 (collect clientExampleModule) clientModeConfig
    clientExampleModule).2.1
    (by
      intro h
      have hd : (collect clientExampleModule).workflowImports.isEmpty = true := by
        rw [h]
        rfl
      exact absurd hd (by decide))

/-- C8 counterexample: `const x = invoke("a", 1);` contains an `invoke` call,
but the collector's pruned traversal never reaches it, so `hasInvoke` stays
false — contradicting the claimed "if and only if the call appears anywhere in
the module". -/
theorem C8_counterexample :
    (collect varInvokeModule).hasInvoke = false ∧
    specModuleContainsReservedCall "invoke" varInvokeModule = true :=
  ⟨by decide, by decide⟩

/-- C8 (amended): the three flags are sound — each one is true only if a call
to the corresponding reserved bare identifier actually appears in the module;
the converse direction of the claimed iff fails (see the counterexample). -/
theorem C8_flags_sound :
    ∀ m : Module,
      ((collect m).hasInvoke = true →
        specModuleContainsReservedCall "invoke" m = true) ∧
      ((collect m).hasSleep = true →
        specModuleContainsReservedCall "sleep" m = true) ∧
      ((collect m).hasWaitForCallback = true →
        specModuleContainsReservedCall "waitForCallback" m = true) := by
  intro m
  obtain ⟨_, _, _, hflag⟩ := collect_char m
  exact ⟨fun h => hflag "invoke" (Or.inl rfl) h,
         fun h => hflag "sleep" (Or.inr (Or.inl rfl)) h,
         fun h => hflag "waitForCallback" (Or.inr (Or.inr rfl)) h⟩

/-- C8 witness: the invoke workflow module does contain an `invoke` call, as
derived from its collected flag through the soundness theorem. -/
theorem C8_witness :
    specModuleContainsReservedCall "invoke" invokeWorkflowModule = true :=
  (C8_flags_sound invokeWorkflowModule).1 (by decide)

/-- C9: a module with no top-level `"use workflow"` directive and no workflow
directive in any function body passes through workflow mode unchanged. -/
theorem C9_no_directive_passthrough :
    ∀ (config : PluginConfig) (m : Module), config.mode = .workflow →
      moduleHasTopLevelWorkflowDirective m = false →
      moduleFnBodiesWorkflowDirectiveFree m = true →
      transformProgram config m = m := by
  intro config m hmode h1 h2
  obtain ⟨c1, c2, _, _⟩ := collect_char m
  have hsc : workflowShortCircuit (collect m) = true := by
    unfold workflowShortCircuit
    rw [c2 h2, c1, h1]
    rfl
  rw [transformProgram_workflow config m hmode]
  exact transformWorkflowModule_shortCircuit _ _ _ hsc

/-- C9 witness: the no-directive module of the Rust unit tests is returned
unchanged. -/
theorem C9_witness :
    transformProgram defaultConfig noDirectiveModule = noDirectiveModule :=
  C9_no_directive_passthrough defaultConfig noDirectiveModule rfl
    (by decide) (by decide)

/-- Does a declarator bear a registered step name? (the step check of the
var-declaration arms). -/
def stepDeclPred (info : CollectedInfo) (d : VarDeclarator) : Bool :=
  match d with
  | .mk (.ident n) _ => isStepFnName info n
  | _ => false

/-- Does a declarator qualify for wrapper generation: identifier name
registered as a workflow and initializer with an extractable block body? -/
def qualifiesAsWorkflowVar (info : CollectedInfo) (d : VarDeclarator) : Bool :=
  match d with
  | .mk (.ident n) (some init) =>
      (findWorkflowFn info n).isSome && (extractArrowBody init).isSome
  | _ => false

theorem workflowVarWrappers_length (info : CollectedInfo) (ex : Bool)
    (decls : List VarDeclarator) :
    (workflowVarWrappers info ex decls).length =
      (decls.filter (qualifiesAsWorkflowVar info)).length := by
  induction decls with
  | nil => rfl
  | cons d rest ih =>
      cases d with
      | mk pat init =>
          cases pat with
          | unknownPat t =>
              simpa [workflowVarWrappers, qualifiesAsWorkflowVar,
                List.filter] using ih
          | ident n =>
              cases init with
              | none =>
                  simpa [workflowVarWrappers, qualifiesAsWorkflowVar,
                    List.filter] using ih
              | some x =>
                  cases hw : findWorkflowFn info n with
                  | none =>
                      simpa [workflowVarWrappers, qualifiesAsWorkflowVar,
                        List.filter, hw] using ih
                  | some wf =>
                      cases hb : extractArrowBody x with
                      | none =>
                          simpa [workflowVarWrappers, qualifiesAsWorkflowVar,
                            List.filter, hw, hb] using ih
                      | some body =>
                          simpa [workflowVarWrappers, qualifiesAsWorkflowVar,
                            List.filter, hw, hb] using ih

/-- C10 counterexample: both declarators of the single `const` declaration of
`twoWorkflowVarModule` are registered workflows, and the output contains two
generated wrappers rather than the single wrapper the claim describes. -/
theorem C10_counterexample :
    (collect twoWorkflowVarModule).workflowFns.length = 2 ∧
    countDurableWrappers
      (transformProgram workflowModeConfig twoWorkflowVarModule) = 2 :=
  ⟨by decide, by decide⟩

/-- C10 (amended): for a top-level variable declaration, any step-named
declarator drops the whole declaration; otherwise one wrapper is generated per
declarator whose identifier is a registered workflow name with an extractable
function/arrow block body (dropping all remaining declarators), and the
declaration is kept verbatim when no declarator qualifies. -/
theorem C10_var_decl_rules :
    ∀ (info : CollectedInfo) (kind : VarDeclKind)
      (decls : List VarDeclarator),
      (decls.any (stepDeclPred info) = true →
         processWorkflowItem info (.stmt (.decl (.var (.mk kind decls)))) =
           []) ∧
      (decls.any (stepDeclPred info) = false →
         (workflowVarWrappers info false decls).length =
           (decls.filter (qualifiesAsWorkflowVar info)).length ∧
         ((workflowVarWrappers info false decls).isEmpty = true →
            processWorkflowItem info (.stmt (.decl (.var (.mk kind decls)))) =
              [.stmt (.decl (.var (.mk kind decls)))]) ∧
         ((workflowVarWrappers info false decls).isEmpty = false →
            processWorkflowItem info (.stmt (.decl (.var (.mk kind decls)))) =
              workflowVarWrappers info false decls)) := by
  intro info kind decls
  constructor
  · intro h
    have h2 : decls.any (fun d =>
        match d with
        | .mk (.ident n) _ => isStepFnName info n
        | _ => false) = true := h
    simp [processWorkflowItem, isUseWorkflowDirective, isDirective, h2]
  · intro h
    have h2 : decls.any (fun d =>
        match d with
        | .mk (.ident n) _ => isStepFnName info n
        | _ => false) = false := h
    refine ⟨workflowVarWrappers_length info false decls, ?_, ?_⟩
    · intro hempty
      simp [processWorkflowItem, isUseWorkflowDirective, isDirective, h2,
        hempty]
    · intro hempty
      simp [processWorkflowItem, isUseWorkflowDirective, isDirective, h2,
        hempty]

/-- C10 witness: instantiation at the two-workflow declaration. -/
theorem C10_witness :
    processWorkflowItem (collect twoWorkflowVarModule)
        (.stmt (.decl (.var (.mk .constK
          [.mk (.ident "w1")
             (some (.arrow [] (.blockStmt [dirStmt "use workflow",
               .ret (some (.lit (.num 1)))]) true)),
           .mk (.ident "w2")
             (some (.arrow [] (.blockStmt [dirStmt "use workflow",
               .ret (some (.lit (.num 2)))]) true))])))) =
      workflowVarWrappers (collect twoWorkflowVarModule) false
        [.mk (.ident "w1")
           (some (.arrow [] (.blockStmt [dirStmt "use workflow",
             .ret (some (.lit (.num 1)))]) true)),
         .mk (.ident "w2")
           (some (.arrow [] (.blockStmt [dirStmt "use workflow",
             .ret (some (.lit (.num 2)))]) true))] :=
  ((C10_var_decl_rules (collect twoWorkflowVarModule) .constK
    [.mk (.ident "w1")
       (some (.arrow [] (.blockStmt [dirStmt "use workflow",
         .ret (some (.lit (.num 1)))]) true)),
     .mk (.ident "w2")
       (some (.arrow [] (.blockStmt [dirStmt "use workflow",
         .ret (some (.lit (.num 2)))]) true))]).2 (by decide)).2.2 (by decide)

end AwsDurable
